import Mathlib

/-
  Verification development for the OOSA Digital OPS message engine:
  a shallow embedding of `src/lib/fpl-validator.ts`, `src/lib/aviation-data.ts`
  and `src/lib/notam-parser.ts`, together with proofs about the embedded
  functions.  Strings are modelled as `List Char` internally (`Str`), with
  the TypeScript string primitives (`trim`, `split`, `replace`, regular
  expression matching with JavaScript backtracking order, ...) reproduced
  faithfully over that representation.  `toUpperCase`/`toLowerCase` are
  modelled on the ASCII range, which is the range exercised by this engine.
-/

namespace OOSA

set_option maxRecDepth 100000

abbrev Str := List Char

-- ── JavaScript character classes ────────────────────────────────────────────

/-- JavaScript `\s` (whitespace class, also used by `String.prototype.trim`). -/
def isJsSpace (c : Char) : Bool :=
  c = ' ' || c = '\t' || c = '\n' || c = '\r' || c = '\x0b' || c = '\x0c' ||
  c = '\u00a0' || c = '\u1680' ||
  (('\u2000' : Char) ≤ c && c ≤ ('\u200a' : Char)) ||
  c = '\u2028' || c = '\u2029' || c = '\u202f' || c = '\u205f' ||
  c = '\u3000' || c = '\ufeff'

/-- JavaScript `\d`. -/
def isDigitC (c : Char) : Bool := '0' ≤ c && c ≤ '9'

def isUpperC (c : Char) : Bool := 'A' ≤ c && c ≤ 'Z'

def isLowerC (c : Char) : Bool := 'a' ≤ c && c ≤ 'z'

def isAsciiLetter (c : Char) : Bool := isUpperC c || isLowerC c

/-- JavaScript `\w` (word character, used for `\b` boundaries). -/
def isWordChar (c : Char) : Bool := isAsciiLetter c || isDigitC c || c = '_'

/-- JavaScript `.` (any character except line terminators). -/
def isDotChar (c : Char) : Bool :=
  !(c = '\n' || c = '\r' || c = '\u2028' || c = '\u2029')

/-- ASCII model of `String.prototype.toUpperCase` on one character. -/
def asciiUpper (c : Char) : Char :=
  if isLowerC c then Char.ofNat (c.toNat - 32) else c

/-- ASCII model of `String.prototype.toLowerCase` on one character. -/
def asciiLower (c : Char) : Char :=
  if isUpperC c then Char.ofNat (c.toNat + 32) else c

/-- Case-insensitive character comparison (the `i` regular-expression flag). -/
def ciEq (a b : Char) : Bool := asciiLower a = asciiLower b

-- ── Basic string primitives over Str ────────────────────────────────────────

def trimL (s : Str) : Str := s.dropWhile isJsSpace

def trimR (s : Str) : Str := (trimL s.reverse).reverse

/-- `String.prototype.trim`. -/
def trimC (s : Str) : Str := trimR (trimL s)

def upperC (s : Str) : Str := s.map asciiUpper

/-- `String.prototype.substring(start, end)` (clamps and swaps its bounds). -/
def jsSubstring (s : Str) (a b : Nat) : Str :=
  let n := s.length
  let a' := min a n
  let b' := min b n
  let lo := min a' b'
  let hi := max a' b'
  (s.drop lo).take (hi - lo)

/-- `String.prototype.substring(start)`. -/
def jsSubstringFrom (s : Str) (a : Nat) : Str := jsSubstring s a s.length

/-- Split on a single literal character (`String.prototype.split("/")`). -/
def splitCharC (sep : Char) (s : Str) : List Str :=
  s.foldr
    (fun c acc =>
      match acc with
      | [] => [[c]]
      | h :: t => if c = sep then [] :: h :: t else (c :: h) :: t)
    [[]]

/-- `Array.prototype.join(sep)` for strings. -/
def joinWith (sep : Str) : List Str → Str
  | [] => []
  | [x] => x
  | x :: xs => x ++ sep ++ joinWith sep xs

/-- JavaScript `parseInt` restricted to the shapes this engine feeds it:
optional whitespace, optional sign, then a maximal run of leading decimal
digits; `none` models `NaN`. -/
def parseIntJS (s : Str) : Option Int :=
  let t := trimL s
  let signAndRest : Bool × Str :=
    match t with
    | '-' :: r => (true, r)
    | '+' :: r => (false, r)
    | _ => (false, t)
  let digits := signAndRest.2.takeWhile isDigitC
  if digits.isEmpty then none
  else
    let v : Nat := digits.foldl (fun a c => a * 10 + (c.toNat - '0'.toNat)) 0
    some (if signAndRest.1 then -(v : Int) else (v : Int))

/-- `parseInt` on a string known to be all digits, as a `Nat` (with `0` for
the impossible empty case). -/
def parseNat (s : Str) : Nat :=
  s.foldl (fun a c => a * 10 + (c.toNat - '0'.toNat)) 0

/-- Decimal digit characters of a natural number. -/
def natDigits (n : Nat) : Str := Nat.toDigits 10 n

/-- Helper for digit grouping: input is the digit list reversed; groups of
three digits are emitted with separating commas. -/
def groupRev : Str → Str
  | [] => []
  | [a] => [a]
  | [a, b] => [b, a]
  | [a, b, c] => [c, b, a]
  | a :: b :: c :: d :: t => [c, b, a] ++ ',' :: groupRev (d :: t)

/-- `Number.prototype.toLocaleString()` modelled as en-US digit grouping. -/
def toLocaleStringGrouped (n : Nat) : Str :=
  groupRev (natDigits n).reverse

/-- `dropWhile` never lengthens a list (used for termination measures). -/
theorem dropWhileLen {α : Type} (p : α → Bool) (l : List α) :
    (l.dropWhile p).length ≤ l.length := by
  induction l with
  | nil => simp
  | cons a t ih =>
    rw [List.dropWhile]
    cases p a
    · simp
    · simpa using Nat.le_succ_of_le ih

-- ── Scanners for the specific regular-expression operations of the source ───

/-- `raw.replace(/\r?\n/g, " ")`. -/
def replaceNewlines : Str → Str
  | [] => []
  | '\r' :: '\n' :: t => ' ' :: replaceNewlines t
  | '\n' :: t => ' ' :: replaceNewlines t
  | c :: t => c :: replaceNewlines t

/-- State of `collapseWsGo`: whether the previous character was whitespace. -/
def collapseWsGo : Bool → Str → Str
  | _, [] => []
  | prevSp, c :: t =>
    if isJsSpace c then
      if prevSp then collapseWsGo true t else ' ' :: collapseWsGo true t
    else c :: collapseWsGo false t

/-- `s.replace(/\s+/g, " ")`: every maximal whitespace run becomes one space. -/
def collapseWs (s : Str) : Str := collapseWsGo false s

/-- `s.replace(/^\(?FPL\s*-?\s*/, "")` (case-sensitive, anchored). -/
def stripFplHead (s : Str) : Str :=
  let core : Str → Option Str := fun u =>
    match u with
    | 'F' :: 'P' :: 'L' :: r =>
      let r1 := r.dropWhile isJsSpace
      let r2 := match r1 with
        | '-' :: rr => rr
        | _ => r1
      some (r2.dropWhile isJsSpace)
    | _ => none
  match s with
  | '(' :: t =>
    match core t with
    | some r => r
    | none => s
  | _ =>
    match core s with
    | some r => r
    | none => s

/-- `s.replace(/\)?\s*$/, "")`: the first (leftmost) position where an
optional `)` followed by only whitespace reaches the end of the string. -/
def stripTrailParen (s : Str) : Str :=
  let rev := s.reverse
  let sp := rev.takeWhile isJsSpace
  match rev.drop sp.length with
  | ')' :: rr => rr.reverse
  | rest => rest.reverse

/-- `eText.replace(/\)\s*$/, "")`: unlike `stripTrailParen` the parenthesis is
mandatory, so a string with no `)` before its trailing whitespace is kept. -/
def stripParenSpacesEnd (s : Str) : Str :=
  let rev := s.reverse
  let sp := rev.takeWhile isJsSpace
  match rev.drop sp.length with
  | ')' :: rr => rr.reverse
  | _ => s

/-- State machine for `s.split(/\s*-\s*/)`: `acc` is the current piece
(reversed), `pend` a run of whitespace not yet attributed (it belongs to the
separator exactly when a `-` follows it), and `afterSep` skips the
whitespace directly after a separator (absorbed by its trailing `\s*`). -/
def splitDashGo : Bool → Str → Str → Str → List Str
  | false, acc, pend, [] => [(pend ++ acc).reverse]
  | true, _, _, [] => [[]]
  | false, acc, pend, c :: t =>
    if isJsSpace c then splitDashGo false acc (c :: pend) t
    else if c = '-' then acc.reverse :: splitDashGo true [] [] t
    else splitDashGo false (c :: pend ++ acc) [] t
  | true, _, _, c :: t =>
    if isJsSpace c then splitDashGo true [] [] t
    else if c = '-' then [] :: splitDashGo true [] [] t
    else splitDashGo false [c] [] t

def splitDashRe (s : Str) : List Str := splitDashGo false [] [] s

/-- State machine for `s.split(/\s+/)`: a piece is closed at the first
character of each whitespace run. -/
def splitWsGo : Bool → Str → Str → List Str
  | false, acc, [] => [acc.reverse]
  | true, _, [] => [[]]
  | false, acc, c :: t =>
    if isJsSpace c then acc.reverse :: splitWsGo true [] t
    else splitWsGo false (c :: acc) t
  | true, _, c :: t =>
    if isJsSpace c then splitWsGo true [] t
    else splitWsGo false [c] t

def splitWsRe (s : Str) : List Str := splitWsGo false [] s

-- ── Word-boundary global replacement (`new RegExp("\\b" + k + "\\b", "g")`) ─

/-- The `\b` assertion after the last (word) character of a matched key. -/
def boundaryAfterOk (rest : Str) : Bool :=
  match rest with
  | [] => true
  | c :: _ => !isWordChar c

/-- Whether the previous character of the key position is a word character;
a match requires the previous character to not be one (keys start with word
characters). -/
def lastIsWord (key : Str) : Bool :=
  match key.reverse with
  | c :: _ => isWordChar c
  | [] => false

/-- One global whole-word replacement pass (`decoded.replace(re, full)`),
scanning left to right; replacements are spliced in without rescanning, and
the search resumes after the matched key, exactly as JavaScript `replace`
with a `g`-flagged `\bKEY\b` pattern. -/
def replaceWordGo (key val : Str) : Nat → Bool → Str → Str
  | _, _, [] => []
  | skip + 1, _, c :: t => replaceWordGo key val skip (isWordChar c) t
  | 0, prevW, c :: t =>
    if !key.isEmpty && !prevW && key.isPrefixOf (c :: t) &&
       boundaryAfterOk ((c :: t).drop key.length) then
      val ++ replaceWordGo key val (key.length - 1) (isWordChar c) t
    else
      c :: replaceWordGo key val 0 (isWordChar c) t

def replaceWordAll (key val s : Str) : Str := replaceWordGo key val 0 false s

/-- Whether the `\bKEY\b` pattern matches anywhere in `s` (same boundary
conditions as `replaceWordGo`). -/
def hasWordMatchGo (key : Str) : Bool → Str → Bool
  | _, [] => false
  | prevW, c :: t =>
    (!key.isEmpty && !prevW && key.isPrefixOf (c :: t) &&
     boundaryAfterOk ((c :: t).drop key.length)) ||
    hasWordMatchGo key (isWordChar c) t

def hasWordMatch (key s : Str) : Bool := hasWordMatchGo key false s

-- ── Runway-identifier rewrites of the NOTAM decoder ─────────────────────────

def isLRC (c : Char) : Bool := ciEq c 'L' || ciEq c 'R' || ciEq c 'C'

/-- Matches `RWY` case-insensitively. -/
def rwyLit : Str → Option Str
  | r :: w :: y :: t =>
    if ciEq r 'R' && ciEq w 'W' && ciEq y 'Y' then some t else none
  | _ => none

/-- Matches `\s+` (at least one whitespace character, maximal munch — the
following character class is disjoint from whitespace). -/
def ws1 (s : Str) : Option Str :=
  let w := s.takeWhile isJsSpace
  if w.isEmpty then none else some (s.drop w.length)

/-- Matches `\d{2}[LRC]?` followed by a requirement `next` on what comes
after; the optional `[LRC]` is greedy and the backtracking alternative can
never succeed, so the match is deterministic. -/
def rwyDesig (s : Str) : Option (Str × Str) :=
  match s with
  | d1 :: d2 :: t =>
    if isDigitC d1 && isDigitC d2 then
      match t with
      | c :: t2 => if isLRC c then some ([d1, d2, c], t2) else some ([d1, d2], t)
      | [] => some ([d1, d2], [])
    else none
  | _ => none

/-- One attempt of `/\bRWY\s+(\d{2}[LRC]?)\s*\/\s*(\d{2}[LRC]?)\b/gi` at the
current position (the `\b` before `R` is checked by the caller).  Returns the
two captures and the rest of the input. -/
def matchRwyPair (s : Str) : Option (Str × Str × Str) :=
  (rwyLit s).bind fun r1 =>
  (ws1 r1).bind fun r2 =>
  (rwyDesig r2).bind fun g1r =>
  let r4 := g1r.2.dropWhile isJsSpace
  match r4 with
  | '/' :: r5 =>
    let r6 := r5.dropWhile isJsSpace
    (rwyDesig r6).bind fun g2r =>
    if boundaryAfterOk g2r.2 then some (g1r.1, g2r.1, g2r.2) else none
  | _ => none

/-- One attempt of `/\bRWY\s+(\d{2}[LRC]?)\b/gi` at the current position. -/
def matchRwySingle (s : Str) : Option (Str × Str) :=
  (rwyLit s).bind fun r1 =>
  (ws1 r1).bind fun r2 =>
  (rwyDesig r2).bind fun g1r =>
  if boundaryAfterOk g1r.2 then some (g1r.1, g1r.2) else none

/-- `decoded.replace(/\bRWY\s+(\d{2}[LRC]?)\s*\/\s*(\d{2}[LRC]?)\b/gi,
"Runway $1/$2")`. -/
def rwyPairGo : Nat → Bool → Str → Str
  | _, _, [] => []
  | skip + 1, _, c :: t => rwyPairGo skip (isWordChar c) t
  | 0, prevW, c :: t =>
    if !prevW then
      match matchRwyPair (c :: t) with
      | some m =>
        let n := (c :: t).length - m.2.2.length
        "Runway ".data ++ m.1 ++ '/' :: m.2.1 ++
          rwyPairGo (n - 1) (isWordChar c) t
      | none => c :: rwyPairGo 0 (isWordChar c) t
    else c :: rwyPairGo 0 (isWordChar c) t

def rwyPairRewrite (s : Str) : Str := rwyPairGo 0 false s

/-- `decoded.replace(/\bRWY\s+(\d{2}[LRC]?)\b/gi, "Runway $1")`. -/
def rwySingleGo : Nat → Bool → Str → Str
  | _, _, [] => []
  | skip + 1, _, c :: t => rwySingleGo skip (isWordChar c) t
  | 0, prevW, c :: t =>
    if !prevW then
      match matchRwySingle (c :: t) with
      | some m =>
        let n := (c :: t).length - m.2.length
        "Runway ".data ++ m.1 ++ rwySingleGo (n - 1) (isWordChar c) t
      | none => c :: rwySingleGo 0 (isWordChar c) t
    else c :: rwySingleGo 0 (isWordChar c) t

def rwySingleRewrite (s : Str) : Str := rwySingleGo 0 false s

/-- Whether the runway-pair pattern matches anywhere (same conditions as
`rwyPairGo`, scanning one character at a time). -/
def hasRwyPairGo : Bool → Str → Bool
  | _, [] => false
  | prevW, c :: t =>
    (!prevW && (matchRwyPair (c :: t)).isSome) || hasRwyPairGo (isWordChar c) t

def hasRwyPair (s : Str) : Bool := hasRwyPairGo false s

/-- Whether the single-runway pattern matches anywhere. -/
def hasRwySingleGo : Bool → Str → Bool
  | _, [] => false
  | prevW, c :: t =>
    (!prevW && (matchRwySingle (c :: t)).isSome) ||
    hasRwySingleGo (isWordChar c) t

def hasRwySingle (s : Str) : Bool := hasRwySingleGo false s

-- ── The strict FPL extraction pattern ───────────────────────────────────────

/-- `[A-Z0-9]` under the `i` flag. -/
def isAlnumCI (c : Char) : Bool := isAsciiLetter c || isDigitC c

/-- Rests after consuming a `\s*`, in greedy (longest-first) order. -/
def wsRests (s : Str) : List Str :=
  let m := (s.takeWhile isJsSpace).length
  (List.range (m + 1)).map (fun k => s.drop (m - k))

/-- Rests after an optional literal character (`X?`), greedy order. -/
def optRests (c : Char) (s : Str) : List Str :=
  match s with
  | c' :: t => if c' = c then [t, s] else [s]
  | [] => [s]

/-- Case-insensitive literal match. -/
def litCIRest : Str → Str → Option Str
  | [], s => some s
  | _ :: _, [] => none
  | a :: w, c :: t => if ciEq a c then litCIRest w t else none

/-- Candidates `(consumed, rest)` for a bounded greedy class repetition
`p{lo,hi}`, longest first. -/
def classRepCands (p : Char → Bool) (lo hi : Nat) (s : Str) : List (Str × Str) :=
  let m := min ((s.takeWhile p).length) hi
  if m < lo then []
  else (List.range (m - lo + 1)).map (fun j => (s.take (m - j), s.drop (m - j)))

/-- Candidates `(consumed, rest)` for a lazy class repetition (`(.+?)` with
`lo = 1`, `(.*?)` with `lo = 0`), shortest first. -/
def lazyCands (p : Char → Bool) (lo : Nat) (s : Str) : List (Str × Str) :=
  let m := (s.takeWhile p).length
  if m < lo then []
  else (List.range (m - lo + 1)).map (fun j => (s.take (lo + j), s.drop (lo + j)))

/-- Rests after a `\s*-\s*` separator, in backtracking order. -/
def sepRests (s : Str) : List Str :=
  (wsRests s).flatMap (fun r =>
    match r with
    | '-' :: r2 => wsRests r2
    | _ => [])

/-- Rests after a `\s*\n?\s*-\s*` separator, in backtracking order. -/
def sepNRests (s : Str) : List Str :=
  (wsRests s).flatMap (fun r1 =>
    (optRests '\n' r1).flatMap (fun r2 =>
      (wsRests r2).flatMap (fun r3 =>
        match r3 with
        | '-' :: r4 => wsRests r4
        | _ => [])))

/-- The final `\s*\)?$` of the strict pattern. -/
def tailOk (s : Str) : Bool :=
  match s.dropWhile isJsSpace with
  | [] => true
  | [')'] => true
  | _ => false

/-- `([IVYZ][SNGMX])` under the `i` flag. -/
def rulesTypeCand (s : Str) : Option (Str × Str) :=
  match s with
  | a :: b :: t =>
    if ("IVYZ".data.any (fun x => ciEq a x)) &&
       ("SNGMX".data.any (fun x => ciEq b x)) then some ([a, b], t) else none
  | _ => none

/-- `([A-Z]{4}\d{4})` under the `i` flag (exact repetition, deterministic). -/
def icaoTimeCand (s : Str) : Option (Str × Str) :=
  let l4 := s.take 4
  let d4 := (s.drop 4).take 4
  if l4.length = 4 && l4.all isAsciiLetter && d4.length = 4 && d4.all isDigitC
  then some (s.take 8, s.drop 8) else none

/-- The capture groups of the strict FPL pattern. -/
structure StrictGroups where
  g1 : Str
  g2 : Str
  g3 : Str
  g4 : Str
  g5 : Str
  g6 : Str
  g7 : Str
  g8 : Str
  g9 : Option Str
deriving DecidableEq

/-- Candidates for the optional trailing group `(?:\s*-\s*(.*?))?`, greedy
(participating first), with the lazy inner capture. -/
def optGroupCands (s : Str) : List (Option Str × Str) :=
  ((sepRests s).flatMap (fun r =>
    (lazyCands isDotChar 0 r).map (fun gr => (some gr.1, gr.2)))) ++ [(none, s)]

/-- JavaScript backtracking match of the strict FPL pattern
`/^\(?(FPL)\s*-\s*([A-Z0-9]{2,7})\s*-\s*([IVYZ][SNGMX])\s*\n?\s*-\s*(.+?)\s*-\s*([A-Z]{4}\d{4})\s*\n?\s*-\s*(.+?)\s*-\s*(.+?)\s*\n?\s*-\s*(.*?)(?:\s*-\s*(.*?))?\s*\)?$/i`
against the whole input, returning the groups of the first match in
backtracking order. -/
def strictMatch (s : Str) : Option StrictGroups :=
  (optRests '(' s).findSome? fun s1 =>
  (litCIRest "FPL".data s1).bind fun s2 =>
  (sepRests s2).findSome? fun s3 =>
  (classRepCands isAlnumCI 2 7 s3).findSome? fun c2 =>
  (sepRests c2.2).findSome? fun s5 =>
  (rulesTypeCand s5).bind fun c3 =>
  (sepNRests c3.2).findSome? fun s7 =>
  (lazyCands isDotChar 1 s7).findSome? fun c4 =>
  (sepRests c4.2).findSome? fun s9 =>
  (icaoTimeCand s9).bind fun c5 =>
  (sepNRests c5.2).findSome? fun s11 =>
  (lazyCands isDotChar 1 s11).findSome? fun c6 =>
  (sepRests c6.2).findSome? fun s13 =>
  (lazyCands isDotChar 1 s13).findSome? fun c7 =>
  (sepNRests c7.2).findSome? fun s15 =>
  (lazyCands isDotChar 0 s15).findSome? fun c8 =>
  (optGroupCands c8.2).findSome? fun c9 =>
  if tailOk c9.2 then
    some ⟨s1.take 3, c2.1, c3.1, c4.1, c5.1, c6.1, c7.1, c8.1, c9.1⟩
  else none

-- ── Field 9 patterns ────────────────────────────────────────────────────────

def isUpperDigit (c : Char) : Bool := isUpperC c || isDigitC c

/-- `/^(\d{0,2})([A-Z0-9]{2,4})\/([LMHJ])(.*)/` (case-sensitive). -/
def field9MainMatch (s : Str) : Option (Str × Str × Str × Str) :=
  (classRepCands isDigitC 0 2 s).findSome? fun c1 =>
  (classRepCands isUpperDigit 2 4 c1.2).findSome? fun c2 =>
  match c2.2 with
  | '/' :: w :: r =>
    if "LMHJ".data.contains w then
      some (c1.1, c2.1, [w], r.takeWhile isDotChar)
    else none
  | _ => none

/-- One attempt of `/([A-Z0-9]{2,4})\/([LMHJ])(.*)/` at the current start. -/
def field9AltAt (s : Str) : Option (Str × Str × Str) :=
  (classRepCands isUpperDigit 2 4 s).findSome? fun c1 =>
  match c1.2 with
  | '/' :: w :: r =>
    if "LMHJ".data.contains w then some (c1.1, [w], r.takeWhile isDotChar)
    else none
  | _ => none

/-- Leftmost match of the unanchored Field 9 fallback pattern. -/
def field9AltMatch : Str → Option (Str × Str × Str)
  | [] => none
  | c :: t =>
    match field9AltAt (c :: t) with
    | some m => some m
    | none => field9AltMatch t

-- ── Field 15 patterns ───────────────────────────────────────────────────────

/-- `([NMK]\d{3,4})` candidates, greedy order. -/
def speedCands (s : Str) : List (Str × Str) :=
  match s with
  | c :: r =>
    if "NMK".data.contains c then
      (classRepCands isDigitC 3 4 r).map (fun d => (c :: d.1, d.2))
    else []
  | [] => []

/-- `(F\d{3}|S\d{4}|A\d{3}|VFR)` candidates, alternation order. -/
def levelCands (s : Str) : List (Str × Str) :=
  (match s with
   | 'F' :: r =>
     if (r.take 3).length = 3 && (r.take 3).all isDigitC then
       [('F' :: r.take 3, r.drop 3)]
     else []
   | _ => []) ++
  (match s with
   | 'S' :: r =>
     if (r.take 4).length = 4 && (r.take 4).all isDigitC then
       [('S' :: r.take 4, r.drop 4)]
     else []
   | _ => []) ++
  (match s with
   | 'A' :: r =>
     if (r.take 3).length = 3 && (r.take 3).all isDigitC then
       [('A' :: r.take 3, r.drop 3)]
     else []
   | _ => []) ++
  (match s with
   | 'V' :: 'F' :: 'R' :: r => [("VFR".data, r)]
   | _ => [])

/-- `/^([NMK]\d{3,4})(F\d{3}|S\d{4}|A\d{3}|VFR)\s+(.*)/`. -/
def field15StrictMatch (s : Str) : Option (Str × Str × Str) :=
  (speedCands s).findSome? fun sp =>
  (levelCands sp.2).findSome? fun lv =>
  (ws1 lv.2).bind fun r =>
  some (sp.1, lv.1, r.takeWhile isDotChar)

/-- `/^([NMK]\d{3,4})\s*(F\d{3}|S\d{4}|A\d{3}|VFR)\s+(.*)/`. -/
def field15SimpleMatch (s : Str) : Option (Str × Str × Str) :=
  (speedCands s).findSome? fun sp =>
  (wsRests sp.2).findSome? fun r1 =>
  (levelCands r1).findSome? fun lv =>
  (ws1 lv.2).bind fun r =>
  some (sp.1, lv.1, r.takeWhile isDotChar)

/-- `/^[A-Z]{1,2}\d{1,4}$/.test(seg)` (equivalent deterministic check, the
character classes being disjoint). -/
def isAirwayToken (s : Str) : Bool :=
  let letters := s.takeWhile isUpperC
  let rest := s.drop letters.length
  1 ≤ letters.length && letters.length ≤ 2 &&
  1 ≤ rest.length && rest.length ≤ 4 && rest.all isDigitC

/-- `remaining.match(/[A-Z]{4}/g)`: non-overlapping four-letter runs. -/
def fourLetterRuns : Str → List Str
  | a :: b :: c :: d :: t =>
    if isUpperC a && isUpperC b && isUpperC c && isUpperC d then
      [a, b, c, d] :: fourLetterRuns t
    else fourLetterRuns (b :: c :: d :: t)
  | _ => []

/-- `pbnStr.match(/[A-Z]\d/g)`: non-overlapping letter-digit pairs. -/
def pbnCodeRuns : Str → List Str
  | a :: b :: t =>
    if isUpperC a && isDigitC b then [a, b] :: pbnCodeRuns t
    else pbnCodeRuns (b :: t)
  | _ => []

-- ── NOTAM identifier pattern ────────────────────────────────────────────────

/-- One attempt of `/\(?([A-Z])(\d{4})\/(\d{2})\s+(NOTAM[NRC])/` at the
current position (the optional parenthesis is deterministic: the letter class
cannot match `(`). -/
def idMatchCore (u : Str) : Option (Str × Str × Str × Str) :=
  match u with
  | l :: t =>
    if isUpperC l then
      let d4 := t.take 4
      if d4.length = 4 && d4.all isDigitC then
        match t.drop 4 with
        | '/' :: t2 =>
          let d2 := t2.take 2
          if d2.length = 2 && d2.all isDigitC then
            (ws1 (t2.drop 2)).bind fun t3 =>
            match t3 with
            | 'N' :: 'O' :: 'T' :: 'A' :: 'M' :: ty :: _ =>
              if ty = 'N' || ty = 'R' || ty = 'C' then
                some ([l], d4, d2, "NOTAM".data ++ [ty])
              else none
            | _ => none
          else none
        | _ => none
      else none
    else none
  | [] => none

def idMatchAt (s : Str) : Option (Str × Str × Str × Str) :=
  match s with
  | '(' :: t => idMatchCore t
  | _ => idMatchCore s

/-- Leftmost match of the NOTAM identifier pattern anywhere in the line. -/
def idSearch : Str → Option (Str × Str × Str × Str)
  | [] => none
  | c :: t =>
    match idMatchAt (c :: t) with
    | some m => some m
    | none => idSearch t

-- ── JavaScript object model (string-keyed records) ──────────────────────────

/-- Property read on a string-keyed object modelled as an entry list in
insertion order. -/
def alookup {α : Type} (m : List (Str × α)) (k : Str) : Option α :=
  (m.find? (fun e => e.1 = k)).map (fun e => e.2)

/-- `obj[k] = v`: updates the value in place if the key exists (keeping the
original entry position), otherwise appends a new entry. -/
def objInsert (m : List (Str × Str)) (k v : Str) : List (Str × Str) :=
  if m.any (fun e => e.1 = k) then
    m.map (fun e => if e.1 = k then (k, v) else e)
  else m ++ [(k, v)]

/-- Truthiness access (`field18.PBN` & co.): an absent key and an empty-string
value are both falsy. -/
def truthyGet (m : List (Str × Str)) (k : Str) : Option Str :=
  match alookup m k with
  | some v => if v.isEmpty then none else some v
  | none => none

/-- `text.indexOf`-based occurrence scan of `parseField18`: all match indices
of `p`, each search resuming at `index + p.length`. -/
def occGo (p : Str) : Str → Nat → Nat → List Nat
  | [], _, _ => []
  | _ :: t, base, skip + 1 => occGo p t (base + 1) skip
  | c :: t, base, 0 =>
    if !p.isEmpty && p.isPrefixOf (c :: t) then
      base :: occGo p t (base + 1) (p.length - 1)
    else occGo p t (base + 1) 0

/-- All occurrence indices of prefix `p` in `text`. -/
def occList (p text : Str) : List Nat := occGo p text 0 0

-- ── Reference data (`src/lib/aviation-data.ts`) ─────────────────────────────

structure AirportInfo where
  name : Str
  city : Str
deriving DecidableEq

def OMAN_AIRPORTS : List (Str × AirportInfo) := [
  ("OOSA".data, ⟨"Salalah International Airport".data, "Salalah".data⟩),
  ("OOMS".data, ⟨"Muscat International Airport".data, "Muscat".data⟩),
  ("OOFD".data, ⟨"Fahud Airport".data, "Fahud".data⟩),
  ("OOKB".data, ⟨"Khasab Airport".data, "Khasab".data⟩),
  ("OOBK".data, ⟨"Sohar Airport".data, "Sohar".data⟩),
  ("OOMA".data, ⟨"Musandam Airport".data, "Musandam".data⟩),
  ("OODQ".data, ⟨"Duqm International Airport".data, "Duqm".data⟩),
  ("OORQ".data, ⟨"Ras Al Hadd Airport".data, "Ras Al Hadd".data⟩)]

def GCC_AIRPORTS : List (Str × AirportInfo) := [
  ("OMDB".data, ⟨"Dubai International Airport".data, "Dubai".data⟩),
  ("OMDW".data, ⟨"Al Maktoum International Airport".data, "Dubai".data⟩),
  ("OMAD".data, ⟨"Abu Dhabi International Airport".data, "Abu Dhabi".data⟩),
  ("OMSJ".data, ⟨"Sharjah International Airport".data, "Sharjah".data⟩),
  ("OMAA".data, ⟨"Al Ain International Airport".data, "Al Ain".data⟩),
  ("OTHH".data, ⟨"Hamad International Airport".data, "Doha".data⟩),
  ("OBBI".data, ⟨"Bahrain International Airport".data, "Bahrain".data⟩),
  ("OEJN".data, ⟨"King Abdulaziz Intl Airport".data, "Jeddah".data⟩),
  ("OERK".data, ⟨"King Khalid International Airport".data, "Riyadh".data⟩),
  ("OEMA".data, ⟨"Prince Mohammed Intl Airport".data, "Madinah".data⟩),
  ("OKBK".data, ⟨"Kuwait International Airport".data, "Kuwait".data⟩)]

def COMMON_AIRPORTS : List (Str × Str) :=
  (OMAN_AIRPORTS.map (fun e => (e.1, e.2.name))) ++
  (GCC_AIRPORTS.map (fun e => (e.1, e.2.name))) ++ [
  ("EGLL".data, "London Heathrow".data),
  ("LFPG".data, "Paris CDG".data),
  ("EDDF".data, "Frankfurt".data),
  ("VABB".data, "Mumbai".data),
  ("VIDP".data, "Delhi".data),
  ("VECC".data, "Kolkata".data),
  ("OPKC".data, "Karachi".data),
  ("HECA".data, "Cairo".data),
  ("HSSS".data, "Khartoum".data),
  ("HAAB".data, "Addis Ababa".data),
  ("HTDA".data, "Dar es Salaam".data),
  ("FAOR".data, "Johannesburg".data)]

def EQUIPMENT_COM_NAV : List (Str × Str) := [
  ("N".data, "No COM/NAV/approach equipment".data),
  ("S".data, "Standard (VHF RTF, VOR, ILS)".data),
  ("A".data, "GBAS landing system".data),
  ("B".data, "LPV (APV with SBAS)".data),
  ("C".data, "LORAN C".data),
  ("D".data, "DME".data),
  ("E1".data, "FMC WPR ACARS".data),
  ("E2".data, "D-FIS ACARS".data),
  ("E3".data, "PDC ACARS".data),
  ("F".data, "ADF".data),
  ("G".data, "GNSS".data),
  ("H".data, "HF RTF".data),
  ("I".data, "Inertial navigation".data),
  ("J1".data, "CPDLC ATN VDL Mode 2".data),
  ("J2".data, "CPDLC FANS 1/A HFDL".data),
  ("J3".data, "CPDLC FANS 1/A VDL Mode A".data),
  ("J4".data, "CPDLC FANS 1/A VDL Mode 2".data),
  ("J5".data, "CPDLC FANS 1/A SATCOM (INMARSAT)".data),
  ("J6".data, "CPDLC FANS 1/A SATCOM (MTSAT)".data),
  ("J7".data, "CPDLC FANS 1/A SATCOM (Iridium)".data),
  ("K".data, "MLS".data),
  ("L".data, "ILS".data),
  ("M1".data, "ATC RTF SATCOM (INMARSAT)".data),
  ("M2".data, "ATC RTF SATCOM (MTSAT)".data),
  ("M3".data, "ATC RTF SATCOM (Iridium)".data),
  ("O".data, "VOR".data),
  ("P1".data, "CPDLC RCP 400".data),
  ("P2".data, "CPDLC RCP 240".data),
  ("P3".data, "SATVOICE RCP 400".data),
  ("R".data, "PBN approved".data),
  ("T".data, "TACAN".data),
  ("U".data, "UHF RTF".data),
  ("V".data, "VHF RTF".data),
  ("W".data, "RVSM approved".data),
  ("X".data, "MNPS approved".data),
  ("Y".data, "VHF with 8.33 kHz spacing".data),
  ("Z".data, "Other equipment (specify in Field 18)".data)]

def EQUIPMENT_SSR : List (Str × Str) := [
  ("N".data, "Nil surveillance equipment".data),
  ("A".data, "Transponder Mode A (4 digits, no altitude)".data),
  ("C".data, "Transponder Mode A+C".data),
  ("E".data, "Transponder Mode S (aircraft ID + pressure altitude)".data),
  ("H".data,
   "Transponder Mode S (aircraft ID + pressure altitude + enhanced surveillance)".data),
  ("I".data, "Transponder Mode S (aircraft ID, no pressure altitude)".data),
  ("L".data,
   "Transponder Mode S (aircraft ID + pressure altitude + enhanced surveillance + ADS-B)".data),
  ("P".data, "Transponder Mode S (pressure altitude, no aircraft ID)".data),
  ("S".data, "Transponder Mode S (both aircraft ID + pressure altitude)".data),
  ("X".data, "Transponder Mode S (no aircraft ID, no pressure altitude)".data),
  ("B1".data, "ADS-B with dedicated 1090 MHz out".data),
  ("B2".data, "ADS-B with dedicated 1090 MHz in/out".data),
  ("U1".data, "ADS-B out (UAT)".data),
  ("U2".data, "ADS-B in/out (UAT)".data),
  ("V1".data, "ADS-B out (VDL Mode 4)".data),
  ("V2".data, "ADS-B in/out (VDL Mode 4)".data),
  ("D1".data, "ADS-C (FANS 1/A)".data)]

def PBN_CODES : List (Str × Str) := [
  ("A1".data, "RNAV 10 (RNP 10)".data),
  ("B1".data, "RNAV 5 (all sensors)".data),
  ("B2".data, "RNAV 5 (GNSS)".data),
  ("B3".data, "RNAV 5 (DME/DME)".data),
  ("B4".data, "RNAV 5 (VOR/DME)".data),
  ("B5".data, "RNAV 5 (INS or IRS)".data),
  ("B6".data, "RNAV 5 (LORAN C)".data),
  ("C1".data, "RNAV 2 (all sensors)".data),
  ("C2".data, "RNAV 2 (GNSS)".data),
  ("C3".data, "RNAV 2 (DME/DME)".data),
  ("C4".data, "RNAV 2 (DME/DME/IRU)".data),
  ("D1".data, "RNAV 1 (all sensors)".data),
  ("D2".data, "RNAV 1 (GNSS)".data),
  ("D3".data, "RNAV 1 (DME/DME)".data),
  ("D4".data, "RNAV 1 (DME/DME/IRU)".data),
  ("L1".data, "RNP 4".data),
  ("O1".data, "Basic RNP 1 (all sensors)".data),
  ("O2".data, "Basic RNP 1 (GNSS)".data),
  ("O3".data, "Basic RNP 1 (DME/DME)".data),
  ("O4".data, "Basic RNP 1 (DME/DME/IRU)".data),
  ("S1".data, "RNP APCH".data),
  ("S2".data, "RNP APCH with BARO-VNAV".data),
  ("T1".data, "RNP AR APCH (RF required)".data),
  ("T2".data, "RNP AR APCH (RF not required)".data)]

structure WakeInfo where
  label : Str
  mtow : Str
deriving DecidableEq

def WAKE_CATEGORIES : List (Str × WakeInfo) := [
  ("L".data, ⟨"Light".data, "< 7,000 kg".data⟩),
  ("M".data, ⟨"Medium".data, "7,000 - 136,000 kg".data⟩),
  ("H".data, ⟨"Heavy".data, "> 136,000 kg".data⟩),
  ("J".data, ⟨"Super".data, "A380 / AN-225".data⟩)]

def FLIGHT_RULES : List (Str × Str) := [
  ("I".data, "IFR (Instrument Flight Rules)".data),
  ("V".data, "VFR (Visual Flight Rules)".data),
  ("Y".data, "IFR first, then VFR".data),
  ("Z".data, "VFR first, then IFR".data)]

def FLIGHT_TYPES : List (Str × Str) := [
  ("S".data, "Scheduled air service".data),
  ("N".data, "Non-scheduled air service".data),
  ("G".data, "General aviation".data),
  ("M".data, "Military".data),
  ("X".data, "Other".data)]

def PERFORMANCE_CATEGORIES : List (Str × Str) := [
  ("A".data, "< 91 kt approach speed".data),
  ("B".data, "91-120 kt approach speed".data),
  ("C".data, "121-140 kt approach speed".data),
  ("D".data, "141-165 kt approach speed".data),
  ("E".data, "> 166 kt approach speed".data)]

structure Field18Info where
  name : Str
  description : Str
  exmpl : Str
  mandatory : Bool := false
deriving DecidableEq

def FIELD18_PREFIXES : List (Str × Field18Info) := [
  ("STS/".data,
   ⟨"Status".data, "Special handling status".data, "STS/ATFMX".data, false⟩),
  ("PBN/".data,
   ⟨"PBN Capability".data, "Performance Based Navigation designators".data,
    "PBN/A1B2C1D1".data, true⟩),
  ("NAV/".data,
   ⟨"Navigation Equipment".data, "Supplementary navigation detail".data,
    "NAV/GBAS SBAS".data, false⟩),
  ("COM/".data,
   ⟨"Communication".data, "Additional COM equipment".data,
    "COM/TCAS CPDLC".data, false⟩),
  ("DAT/".data,
   ⟨"Data Link".data, "Data link capability".data, "DAT/SV".data, false⟩),
  ("SUR/".data,
   ⟨"Surveillance".data, "Surveillance equipment codes".data,
    "SUR/260B RSP180".data, false⟩),
  ("DEP/".data,
   ⟨"Departure".data, "Departure aerodrome if ZZZZ in Field 13".data,
    "DEP/OMDB".data, false⟩),
  ("DEST/".data,
   ⟨"Destination".data, "Destination aerodrome if ZZZZ in Field 16".data,
    "DEST/OOSA".data, false⟩),
  ("DOF/".data,
   ⟨"Date of Flight".data, "YYMMDD format (mandatory)".data,
    "DOF/260215".data, true⟩),
  ("REG/".data,
   ⟨"Registration".data, "Aircraft registration mark (mandatory)".data,
    "REG/A4OEE".data, true⟩),
  ("EET/".data,
   ⟨"Elapsed Time".data, "FIR boundary crossing estimates".data,
    "EET/OOMM0045 OMAE0120".data, false⟩),
  ("SEL/".data,
   ⟨"SELCAL".data, "SELCAL code".data, "SEL/ABCD".data, false⟩),
  ("TYP/".data,
   ⟨"Type".data, "Aircraft type if ZZZZ in Field 9".data, "TYP/B738".data,
    false⟩),
  ("CODE/".data,
   ⟨"Aircraft Address".data, "24-bit ICAO aircraft address (hex)".data,
    "CODE/A1B2C3".data, false⟩),
  ("DLE/".data,
   ⟨"Delay".data, "Delay en-route point and duration".data, "DLE/INS0030".data,
    false⟩),
  ("OPR/".data,
   ⟨"Operator".data, "Aircraft operator ICAO designator or name".data,
    "OPR/OMA".data, false⟩),
  ("ORGN/".data,
   ⟨"Originator".data, "Message originator 8-char AFTN address".data,
    "ORGN/OOMSZPZX".data, false⟩),
  ("PER/".data,
   ⟨"Performance".data, "Aircraft performance category A-E".data, "PER/C".data,
    false⟩),
  ("ALTN/".data,
   ⟨"Alternate".data, "Alternate aerodrome name if ZZZZ".data,
    "ALTN/OOMS".data, false⟩),
  ("RALT/".data,
   ⟨"En-route Alternate".data, "En-route alternate aerodromes".data,
    "RALT/OOMS".data, false⟩),
  ("TALT/".data,
   ⟨"Takeoff Alternate".data, "Takeoff alternate aerodrome".data,
    "TALT/OOBK".data, false⟩),
  ("RIF/".data,
   ⟨"Revised Route".data, "Route to revised destination".data,
    "RIF/DT OOMS".data, false⟩),
  ("RVR/".data,
   ⟨"RVR".data, "RVR requirement in metres".data, "RVR/200".data, false⟩),
  ("RMK/".data,
   ⟨"Remarks".data, "Free text remarks".data, "RMK/CHARTER FLIGHT".data,
    false⟩)]

structure AircraftInfo where
  name : Str
  wake : Str
deriving DecidableEq

def AIRCRAFT_TYPES : List (Str × AircraftInfo) := [
  ("A20N".data, ⟨"Airbus A320neo".data, "M".data⟩),
  ("A21N".data, ⟨"Airbus A321neo".data, "M".data⟩),
  ("A318".data, ⟨"Airbus A318".data, "M".data⟩),
  ("A319".data, ⟨"Airbus A319".data, "M".data⟩),
  ("A320".data, ⟨"Airbus A320".data, "M".data⟩),
  ("A321".data, ⟨"Airbus A321".data, "M".data⟩),
  ("A332".data, ⟨"Airbus A330-200".data, "H".data⟩),
  ("A333".data, ⟨"Airbus A330-300".data, "H".data⟩),
  ("A339".data, ⟨"Airbus A330-900neo".data, "H".data⟩),
  ("A340".data, ⟨"Airbus A340".data, "H".data⟩),
  ("A359".data, ⟨"Airbus A350-900".data, "H".data⟩),
  ("A35K".data, ⟨"Airbus A350-1000".data, "H".data⟩),
  ("A380".data, ⟨"Airbus A380".data, "J".data⟩),
  ("A388".data, ⟨"Airbus A380-800".data, "J".data⟩),
  ("B733".data, ⟨"Boeing 737-300".data, "M".data⟩),
  ("B734".data, ⟨"Boeing 737-400".data, "M".data⟩),
  ("B735".data, ⟨"Boeing 737-500".data, "M".data⟩),
  ("B738".data, ⟨"Boeing 737-800".data, "M".data⟩),
  ("B739".data, ⟨"Boeing 737-900".data, "M".data⟩),
  ("B37M".data, ⟨"Boeing 737 MAX 8".data, "M".data⟩),
  ("B38M".data, ⟨"Boeing 737 MAX 8-200".data, "M".data⟩),
  ("B39M".data, ⟨"Boeing 737 MAX 9".data, "M".data⟩),
  ("B744".data, ⟨"Boeing 747-400".data, "H".data⟩),
  ("B748".data, ⟨"Boeing 747-8".data, "H".data⟩),
  ("B763".data, ⟨"Boeing 767-300".data, "H".data⟩),
  ("B772".data, ⟨"Boeing 777-200".data, "H".data⟩),
  ("B773".data, ⟨"Boeing 777-300".data, "H".data⟩),
  ("B77L".data, ⟨"Boeing 777-200LR".data, "H".data⟩),
  ("B77W".data, ⟨"Boeing 777-300ER".data, "H".data⟩),
  ("B788".data, ⟨"Boeing 787-8".data, "H".data⟩),
  ("B789".data, ⟨"Boeing 787-9".data, "H".data⟩),
  ("B78X".data, ⟨"Boeing 787-10".data, "H".data⟩),
  ("E170".data, ⟨"Embraer 170".data, "M".data⟩),
  ("E190".data, ⟨"Embraer 190".data, "M".data⟩),
  ("E195".data, ⟨"Embraer 195".data, "M".data⟩),
  ("AT72".data, ⟨"ATR 72".data, "M".data⟩),
  ("AT75".data, ⟨"ATR 72-500".data, "M".data⟩),
  ("AT76".data, ⟨"ATR 72-600".data, "M".data⟩),
  ("DH8D".data, ⟨"Dash 8 Q400".data, "M".data⟩),
  ("CRJ7".data, ⟨"CRJ-700".data, "M".data⟩),
  ("CRJ9".data, ⟨"CRJ-900".data, "M".data⟩),
  ("C172".data, ⟨"Cessna 172".data, "L".data⟩),
  ("C208".data, ⟨"Cessna 208 Caravan".data, "L".data⟩),
  ("AN25".data, ⟨"Antonov An-225 Mriya".data, "J".data⟩)]

def QCODE_SUBJECT : List (Str × Str) := [
  ("A".data, "Aerodrome".data),
  ("C".data, "En-route ATS communication facility or service".data),
  ("F".data, "En-route navigation facility or service".data),
  ("I".data, "Instrument approach procedure".data),
  ("L".data, "Lighting facility".data),
  ("M".data, "Movement and landing area".data),
  ("N".data, "Other area navigation information".data),
  ("O".data, "Obstacle (other than navigation warning)".data),
  ("P".data, "Air traffic procedures".data),
  ("R".data, "Airspace restriction".data),
  ("S".data, "ATS route".data),
  ("W".data, "Navigation warning".data),
  ("X".data, "Other".data)]

def QCODE_CONDITION : List (Str × Str) := [
  ("A".data, "Available/Operational/Activated/Open".data),
  ("C".data, "Closed/Withdrawn".data),
  ("H".data, "Temporarily restricted/Hazard exists".data),
  ("K".data, "Returned to service".data),
  ("L".data, "Limitation".data),
  ("O".data, "Operational".data),
  ("P".data, "Partially available".data),
  ("R".data, "Replacement available".data),
  ("S".data, "Suppressed".data),
  ("U".data, "Unserviceable".data),
  ("W".data, "Wholly unavailable".data)]

-- ── Types of the validator (`src/lib/fpl-validator.ts`) ─────────────────────

inductive Severity where
  | error
  | warning
  | info
  | success
deriving DecidableEq

structure ValidationResult where
  field : Str
  severity : Severity
  message : Str
  detail : Option Str := none
deriving DecidableEq

structure ParsedFPL where
  raw : Str
  field3 : Str
  field7 : Str
  field8 : Str
  field9 : Str
  field10 : Str
  field13 : Str
  field15 : Str
  field16 : Str
  field18 : Str
  field19 : Option Str := none
deriving DecidableEq

/-- JavaScript `s[i]`, as a (possibly empty) string. -/
def charAt (s : Str) (i : Nat) : Str := (s.drop i).take 1

/-- Rendering of a JavaScript number in a template literal (non-negative). -/
def intDigits (i : Int) : Str :=
  if i < 0 then '-' :: natDigits i.natAbs else natDigits i.natAbs

/-- `(n / 100).toFixed(2)` for the Mach display (exact for these inputs). -/
def machFixed (n : Int) : Str :=
  let m := n.natAbs
  natDigits (m / 100) ++ '.' ::
    (if m % 100 < 10 then '0' :: natDigits (m % 100) else natDigits (m % 100))

/-- Template-literal rendering of a possibly `undefined` expression. -/
def optUndef (o : Option Str) : Str := o.getD "undefined".data

-- ── Parser (`parseFPL`) ─────────────────────────────────────────────────────

/-- The whitespace normalisation at the top of `parseFPL`:
`raw.replace(/\r?\n/g, " ").replace(/\s+/g, " ").trim()`. -/
def cleanFPL (raw : Str) : Str := trimC (collapseWs (replaceNewlines raw))

/-- The hyphen-split parts of the lenient fallback parse. -/
def lenientParts (cleaned : Str) : List Str :=
  ((splitDashRe (stripTrailParen (stripFplHead cleaned))).map trimC).filter
    (fun p => !p.isEmpty)

def parseFPL (raw : Str) : Option ParsedFPL :=
  let cleaned := cleanFPL raw
  match strictMatch cleaned with
  | some m =>
    some { raw := cleaned, field3 := m.g1, field7 := m.g2, field8 := m.g3,
           field9 := trimC m.g4, field10 := [], field13 := m.g5,
           field15 := trimC m.g6, field16 := trimC m.g7,
           field18 := trimC m.g8, field19 := m.g9.map trimC }
  | none =>
    let dashParts := lenientParts cleaned
    if dashParts.length ≥ 6 then
      some { raw := cleaned, field3 := "FPL".data,
             field7 := (dashParts.get? 0).getD [],
             field8 := (dashParts.get? 1).getD [],
             field9 := (dashParts.get? 2).getD [],
             field10 := [],
             field13 := (dashParts.get? 3).getD [],
             field15 := (dashParts.get? 4).getD [],
             field16 := (dashParts.get? 5).getD [],
             field18 := (dashParts.get? 6).getD [],
             field19 := dashParts.get? 7 }
    else none

-- ── `parseField18` ──────────────────────────────────────────────────────────

/-- Stable insertion (descending key length) used to model the JavaScript
stable `sort((a, b) => b.length - a.length)`. -/
def insDescLen (x : Str) : List Str → List Str
  | [] => [x]
  | y :: ys => if y.length ≥ x.length then y :: insDescLen x ys else x :: y :: ys

def sortDescLen (l : List Str) : List Str :=
  l.foldl (fun acc x => insDescLen x acc) []

def FIELD18_PREFIX_KEYS : List Str := FIELD18_PREFIXES.map (fun e => e.1)

def field18SortedKeys : List Str := sortDescLen FIELD18_PREFIX_KEYS

/-- One element of the `positions` array of `parseField18` (the source calls
the first field `prefix`; renamed here because of a Lean keyword). -/
structure PrefixPos where
  pfx : Str
  index : Nat
deriving DecidableEq

/-- Stable insertion by ascending index, modelling the JavaScript stable
`sort((a, b) => a.index - b.index)`. -/
def insByIdx (x : PrefixPos) : List PrefixPos → List PrefixPos
  | [] => [x]
  | y :: ys => if y.index ≤ x.index then y :: insByIdx x ys else x :: y :: ys

def sortByIdx (l : List PrefixPos) : List PrefixPos :=
  l.foldl (fun acc x => insByIdx x acc) []

def rawPositions (text : Str) : List PrefixPos :=
  field18SortedKeys.flatMap (fun p => (occList p text).map (fun i => ⟨p, i⟩))

def sortedPositions (text : Str) : List PrefixPos := sortByIdx (rawPositions text)

/-- `key.replace("/", "")` (first occurrence only). -/
def removeFirstSlash : Str → Str
  | [] => []
  | '/' :: t => t
  | c :: t => c :: removeFirstSlash t

/-- The value-assignment loop of `parseField18`: each position's value is the
text between the end of its key and the next position (or the end of the
text), trimmed. -/
def posEntries (text : Str) : List PrefixPos → List (Str × Str)
  | [] => []
  | [a] => [(removeFirstSlash a.pfx,
             trimC (jsSubstring text (a.index + a.pfx.length) text.length))]
  | a :: b :: t =>
    (removeFirstSlash a.pfx,
     trimC (jsSubstring text (a.index + a.pfx.length) b.index)) ::
    posEntries text (b :: t)

def parseField18 (text : Str) : List (Str × Str) :=
  if text.isEmpty then []
  else
    (posEntries text (sortedPositions text)).foldl
      (fun m e => objInsert m e.1 e.2) []

-- ── Per-field validators ────────────────────────────────────────────────────

def validateField7 (callsign : Str) : List ValidationResult :=
  if callsign.isEmpty then
    [⟨"Field 7".data, .error, "Aircraft identification is missing".data, none⟩]
  else
    let r1 :=
      if callsign.length < 2 || callsign.length > 7 then
        [⟨"Field 7".data, .error,
          "Callsign \"".data ++ callsign ++ "\" must be 2-7 characters".data,
          some "ICAO Doc 4444 requires 2-7 alphanumeric characters".data⟩]
      else []
    let r2 :=
      if !(!callsign.isEmpty && callsign.all isUpperDigit) then
        [⟨"Field 7".data, .error, "Callsign must be alphanumeric only".data,
          none⟩]
      else []
    let rs := r1 ++ r2
    if rs.isEmpty then
      [⟨"Field 7".data, .success, "Aircraft ID: ".data ++ callsign, none⟩]
    else rs

def validateField8 (field8 : Str) : List ValidationResult :=
  if field8.isEmpty || field8.length < 2 then
    [⟨"Field 8".data, .error, "Flight rules and type are missing".data, none⟩]
  else
    let rules := charAt field8 0
    let ty := charAt field8 1
    (match alookup FLIGHT_RULES rules with
     | some v => [⟨"Field 8".data, .success, "Rules: ".data ++ v, none⟩]
     | none =>
       [⟨"Field 8".data, .error,
         "Invalid flight rules \"".data ++ rules ++ "\"".data,
         some "Must be I, V, Y, or Z".data⟩]) ++
    (match alookup FLIGHT_TYPES ty with
     | some v => [⟨"Field 8".data, .success, "Type: ".data ++ v, none⟩]
     | none =>
       [⟨"Field 8".data, .error,
         "Invalid flight type \"".data ++ ty ++ "\"".data,
         some "Must be S, N, G, M, or X".data⟩])

/-- The greedy two-character-first tokenizer of `validateField10`, returning
`(validCodes, invalidCodes)`. -/
def tokenizeEquip (table : List (Str × Str)) : Str → List Str × List Str
  | [] => ([], [])
  | c :: t =>
    let two := (c :: t).take 2
    if (alookup table two).isSome then
      match t with
      | [] => ([two], [])
      | _ :: t2 =>
        let rest := tokenizeEquip table t2
        (two :: rest.1, rest.2)
    else if (alookup table [c]).isSome then
      let rest := tokenizeEquip table t
      ([c] :: rest.1, rest.2)
    else
      let rest := tokenizeEquip table t
      (rest.1, [c] :: rest.2)

/-- `const comNav = parts[0] || ""` of `validateField10`. -/
def comNavOf (equipment : Str) : Str :=
  ((splitCharC '/' equipment).get? 0).getD []

/-- `const ssr = parts[1] || ""` of `validateField10`. -/
def ssrOf (equipment : Str) : Str :=
  ((splitCharC '/' equipment).get? 1).getD []

def validateField10 (equipment : Str) : List ValidationResult :=
  if equipment.isEmpty then
    [⟨"Field 10".data, .warning, "Equipment field is empty".data, none⟩]
  else
    let comNav := comNavOf equipment
    let ssr := ssrOf equipment
    (if comNav = "N".data then
      [⟨"Field 10".data, .info, "No COM/NAV equipment".data, none⟩]
     else if !comNav.isEmpty then
      let tk := tokenizeEquip EQUIPMENT_COM_NAV comNav
      (if !tk.1.isEmpty then
        [⟨"Field 10".data, .success,
          "COM/NAV: ".data ++ joinWith ", ".data tk.1, none⟩]
       else []) ++
      (if !tk.2.isEmpty then
        [⟨"Field 10".data, .warning,
          "Unknown COM/NAV codes: ".data ++ joinWith ", ".data tk.2, none⟩]
       else [])
     else []) ++
    (if ssr = "N".data then
      [⟨"Field 10".data, .warning,
        "No surveillance equipment declared".data, none⟩]
     else if !ssr.isEmpty then
      let tk := tokenizeEquip EQUIPMENT_SSR ssr
      (if !tk.1.isEmpty then
        [⟨"Field 10".data, .success, "SSR: ".data ++ joinWith ", ".data tk.1,
          none⟩]
       else []) ++
      (if !tk.2.isEmpty then
        [⟨"Field 10".data, .warning,
          "Unknown SSR codes: ".data ++ joinWith ", ".data tk.2, none⟩]
       else [])
     else [])

def validateField9 (field9 : Str) : List ValidationResult :=
  if field9.isEmpty then
    [⟨"Field 9".data, .error,
      "Number, type, and wake category are missing".data, none⟩]
  else
    match field9MainMatch field9 with
    | none =>
      (match field9AltMatch field9 with
       | some m =>
         let acType := m.1
         let wake := m.2.1
         let equipmentPart := m.2.2
         (match alookup AIRCRAFT_TYPES acType with
          | some info =>
            [⟨"Field 9".data, .success, "Type: ".data ++ info.name, none⟩] ++
            (if info.wake = wake then []
             else
               [⟨"Field 9".data, .warning,
                 "Wake category \"".data ++ wake ++ "\" may not match ".data ++
                 acType ++ " (expected ".data ++ info.wake ++ ")".data, none⟩])
          | none =>
            [⟨"Field 9".data, .info,
              "Aircraft type: ".data ++ acType ++
              " (not in common database)".data, none⟩]) ++
         [⟨"Field 9".data, .success,
           "Wake category: ".data ++
           (((alookup WAKE_CATEGORIES wake).map (fun w => w.label)).getD wake),
           none⟩] ++
         (match equipmentPart with
          | '-' :: eq1 =>
            let eqParts := splitCharC '/' eq1
            if eqParts.length ≥ 1 then
              validateField10 (joinWith "/".data eqParts)
            else []
          | _ => [])
       | none =>
         [⟨"Field 9".data, .error,
           "Cannot parse type/wake: \"".data ++ field9 ++ "\"".data,
           some "Expected format: TYPE/WAKE (e.g., B738/M)".data⟩])
    | some m =>
      let num := m.1
      let acType := m.2.1
      let wake := m.2.2.1
      (if !num.isEmpty &&
          ((parseIntJS num).getD 0 < 1 || (parseIntJS num).getD 0 > 99) then
        [⟨"Field 9".data, .error,
          "Invalid number of aircraft: ".data ++ num, none⟩]
       else []) ++
      (match alookup AIRCRAFT_TYPES acType with
       | some info =>
         [⟨"Field 9".data, .success, "Type: ".data ++ info.name, none⟩]
       | none =>
         [⟨"Field 9".data, .info,
           "Type: ".data ++ acType ++ " (not in common database)".data,
           none⟩]) ++
      [⟨"Field 9".data, .success,
        "Wake: ".data ++
        optUndef ((alookup WAKE_CATEGORIES wake).map (fun w => w.label)) ++
        " (".data ++
        optUndef ((alookup WAKE_CATEGORIES wake).map (fun w => w.mtow)) ++
        ")".data, none⟩]

/-- The `name ? ` (${name})` : ""` fragment of the airport messages. -/
def parenName (o : Option Str) : Str :=
  match o with
  | some n => if n.isEmpty then [] else " (".data ++ n ++ ")".data
  | none => []

def validateField13 (field13 : Str) : List ValidationResult :=
  if field13.isEmpty || field13.length < 8 then
    [⟨"Field 13".data, .error,
      "Departure aerodrome and EOBT are missing".data,
      some "Format: ICAO code (4 chars) + EOBT (4 digits HHMM)".data⟩]
  else
    let depIcao := upperC (jsSubstring field13 0 4)
    let eobt := jsSubstring field13 4 8
    (if !(depIcao.length = 4 && depIcao.all isUpperC) then
      [⟨"Field 13".data, .error,
        "Invalid departure ICAO: \"".data ++ depIcao ++ "\"".data, none⟩]
     else
      [⟨"Field 13".data, .success,
        "Departure: ".data ++ depIcao ++
        parenName (alookup COMMON_AIRPORTS depIcao), none⟩]) ++
    (if !(eobt.length = 4 && eobt.all isDigitC) then
      [⟨"Field 13".data, .error,
        "Invalid EOBT: \"".data ++ eobt ++ "\"".data,
        some "Must be 4 digits HHMM".data⟩]
     else
      let hours := parseNat (jsSubstring eobt 0 2)
      let minutes := parseNat (jsSubstring eobt 2 4)
      if hours > 23 || minutes > 59 then
        [⟨"Field 13".data, .error,
          "Invalid EOBT time: ".data ++ eobt, none⟩]
      else
        [⟨"Field 13".data, .success, "EOBT: ".data ++ eobt ++ "Z".data,
          none⟩]) ++
    (if (alookup OMAN_AIRPORTS depIcao).isSome then
      [⟨"Field 13".data, .info,
        ("Oman CAR-172: FPL must be filed at least 60 minutes before " ++
         "EOBT for IFR flights in Muscat FIR").data, none⟩]
     else [])

def validateRoute (route : Str) : List ValidationResult :=
  if route.isEmpty then []
  else
    let segments := splitWsRe (trimC route)
    let hasDCT := segments.any (fun s => s = "DCT".data)
    let hasAirway := segments.any (fun s => !(s = "DCT".data) && isAirwayToken s)
    (if hasDCT then
      [⟨"Field 15".data, .info,
        "Route includes direct (DCT) segments".data, none⟩]
     else []) ++
    (if hasAirway then
      [⟨"Field 15".data, .info, "Route includes airway segments".data, none⟩]
     else []) ++
    [⟨"Field 15".data, .success,
      "Route: ".data ++ natDigits segments.length ++ " segments".data, none⟩]

def validateField15 (field15 : Str) : List ValidationResult :=
  if field15.isEmpty then
    [⟨"Field 15".data, .error, "Route information is missing".data, none⟩]
  else
    match field15StrictMatch field15 with
    | none =>
      (match field15SimpleMatch field15 with
       | some m =>
         [⟨"Field 15".data, .success, "Speed: ".data ++ m.1, none⟩,
          ⟨"Field 15".data, .success, "Level: ".data ++ m.2.1, none⟩] ++
         validateRoute m.2.2
       | none =>
         [⟨"Field 15".data, .warning,
           "Could not parse speed/level prefix".data,
           some ("Raw: ".data ++ jsSubstring field15 0 30 ++ "...".data)⟩] ++
         validateRoute field15)
    | some m =>
      let speed := m.1
      let level := m.2.1
      let route := m.2.2
      (match speed with
       | 'N' :: srest =>
         let kts := (parseIntJS srest).getD 0
         if kts < 50 || kts > 999 then
           [⟨"Field 15".data, .warning,
             "Unusual speed: ".data ++ speed ++ " (".data ++ intDigits kts ++
             " knots)".data, none⟩]
         else
           [⟨"Field 15".data, .success,
             "Speed: ".data ++ intDigits kts ++ " knots TAS".data, none⟩]
       | 'M' :: srest =>
         [⟨"Field 15".data, .success,
           "Speed: Mach ".data ++ machFixed ((parseIntJS srest).getD 0),
           none⟩]
       | 'K' :: srest =>
         [⟨"Field 15".data, .success,
           "Speed: ".data ++ intDigits ((parseIntJS srest).getD 0) ++
           " km/h".data, none⟩]
       | _ => []) ++
      (match level with
       | 'F' :: lrest =>
         let fl := (parseIntJS lrest).getD 0
         [⟨"Field 15".data, .success,
           "Level: FL".data ++ intDigits fl ++ " (".data ++
           toLocaleStringGrouped (fl.toNat * 100) ++ " ft)".data, none⟩] ++
         (if fl > 600 then
           [⟨"Field 15".data, .warning,
             "FL".data ++ intDigits fl ++ " is unusually high".data, none⟩]
          else [])
       | 'A' :: lrest =>
         let alt := (parseIntJS lrest).getD 0 * 100
         [⟨"Field 15".data, .success,
           "Altitude: ".data ++ toLocaleStringGrouped alt.toNat ++
           " ft".data, none⟩]
       | 'S' :: _ =>
         [⟨"Field 15".data, .success,
           "Standard metric: ".data ++ level, none⟩]
       | _ =>
         if level = "VFR".data then
           [⟨"Field 15".data, .success, "Level: VFR".data, none⟩]
         else []) ++
      validateRoute route

def validateField16 (field16 : Str) : List ValidationResult :=
  if field16.isEmpty || field16.length < 8 then
    [⟨"Field 16".data, .error, "Destination and EET are missing".data,
      some "Format: ICAO code + 4-digit EET + optional alternates".data⟩]
  else
    let destIcao := upperC (jsSubstring field16 0 4)
    let eet := jsSubstring field16 4 8
    (if !(destIcao.length = 4 && destIcao.all isUpperC) then
      [⟨"Field 16".data, .error,
        "Invalid destination ICAO: \"".data ++ destIcao ++ "\"".data, none⟩]
     else
      [⟨"Field 16".data, .success,
        "Destination: ".data ++ destIcao ++
        parenName (alookup COMMON_AIRPORTS destIcao), none⟩]) ++
    (if !(eet.length = 4 && eet.all isDigitC) then
      [⟨"Field 16".data, .error,
        "Invalid EET: \"".data ++ eet ++ "\"".data, none⟩]
     else
      let hours := parseNat (jsSubstring eet 0 2)
      let mins := parseNat (jsSubstring eet 2 4)
      [⟨"Field 16".data, .success,
        "Total EET: ".data ++ natDigits hours ++ "h ".data ++
        natDigits mins ++ "m".data, none⟩]) ++
    (let remaining := trimC (jsSubstringFrom field16 8)
     if remaining.isEmpty then []
     else
       (fourLetterRuns remaining).map (fun alt =>
         ⟨"Field 16".data, .success,
          "Alternate: ".data ++ alt ++
          parenName (alookup COMMON_AIRPORTS alt), none⟩))

def validateField18Parsed (field18 : List (Str × Str)) (field8 : Str)
    (field10 : Str) : List ValidationResult :=
  if field18.isEmpty then
    [⟨"Field 18".data, .warning, "Field 18 is empty".data, none⟩]
  else
    (field18.flatMap (fun e =>
      match alookup FIELD18_PREFIXES (e.1 ++ "/".data) with
      | some info =>
        [⟨"Field 18".data, .success, info.name ++ ": ".data ++ e.2, none⟩]
      | none =>
        [⟨"Field 18".data, .warning,
          "Unknown prefix: ".data ++ e.1 ++ "/".data, none⟩])) ++
    (match truthyGet field18 "PBN".data with
     | some pbnV =>
       let codes := pbnCodeRuns (trimC pbnV)
       let invalid := codes.filter (fun c => (alookup PBN_CODES c).isNone)
       let valid := codes.filter (fun c => (alookup PBN_CODES c).isSome)
       (if !invalid.isEmpty then
         [⟨"Field 18".data, .warning,
           "Unknown PBN codes: ".data ++ joinWith ", ".data invalid, none⟩]
        else []) ++
       (if !valid.isEmpty then
         [⟨"Field 18".data, .info,
           "PBN capabilities: ".data ++
           joinWith ", ".data
             (valid.map (fun c =>
               c ++ " (".data ++ ((alookup PBN_CODES c).getD []) ++
               ")".data)), none⟩]
        else [])
     | none => []) ++
    (match truthyGet field18 "DOF".data with
     | some v =>
       if !(v.length = 6 && v.all isDigitC) then
         [⟨"Field 18".data, .error,
           "Invalid DOF format: \"".data ++ v ++ "\"".data,
           some "Must be YYMMDD (e.g., 260215)".data⟩]
       else []
     | none => []) ++
    (match truthyGet field18 "PER".data with
     | some v =>
       if (alookup PERFORMANCE_CATEGORIES v).isNone then
         [⟨"Field 18".data, .error,
           "Invalid performance category: \"".data ++ v ++ "\"".data,
           some "Must be A, B, C, D, or E".data⟩]
       else []
     | none => []) ++
    (let rules := charAt field8 0
     (if rules = "I".data &&
         ((splitCharC '/' field10).get? 0).getD [] = "N".data then
       [⟨"Cross-check".data, .error,
         "IFR flight rules but no COM/NAV equipment (Field 10 = N)".data,
         none⟩]
      else []) ++
     (if field10.contains 'R' && (truthyGet field18 "PBN".data).isNone then
       [⟨"Cross-check".data, .error,
         "Field 10 includes R (PBN approved) but Field 18 has no PBN/ entry".data,
         some "ICAO Doc 4444: If R is filed in Field 10, PBN/ must appear in Field 18".data⟩]
      else []) ++
     (if field10.contains 'Z' && (truthyGet field18 "COM".data).isNone &&
         (truthyGet field18 "NAV".data).isNone &&
         (truthyGet field18 "DAT".data).isNone then
       [⟨"Cross-check".data, .error,
         "Field 10 includes Z but Field 18 has no COM/, NAV/, or DAT/".data,
         some "ICAO Doc 4444: Z requires specification in Field 18".data⟩]
      else []) ++
     (if (truthyGet field18 "REG".data).isNone then
       [⟨"Field 18".data, .warning,
         "REG/ (registration) is recommended for Oman FIR operations".data,
         none⟩]
      else []) ++
     (if (truthyGet field18 "DOF".data).isNone then
       [⟨"Field 18".data, .warning,
         "DOF/ (date of flight) is recommended".data, none⟩]
      else []) ++
     (if rules = "I".data && (truthyGet field18 "PBN".data).isNone then
       [⟨"Field 18".data, .warning,
         "Oman CAR-175: PBN/ is recommended for IFR flights in Muscat FIR".data,
         none⟩]
      else []))

-- ── Main validation function (`validateFPL`) ────────────────────────────────

structure Summary where
  errors : Nat
  warnings : Nat
  info : Nat
  success : Nat
deriving DecidableEq

structure FPLValidation where
  parsed : Option ParsedFPL
  field18Parsed : List (Str × Str)
  results : List ValidationResult
  summary : Summary
deriving DecidableEq

def countSev (rs : List ValidationResult) (s : Severity) : Nat :=
  (rs.filter (fun r => r.severity = s)).length

def formatErrorFinding : ValidationResult :=
  ⟨"Format".data, .error, "Could not parse FPL message".data,
   some ("Expected format: (FPL-CALLSIGN-RULESTYPE-EQUIPMENT-DEPARTURE" ++
         "-ROUTE-DESTINATION-OTHER INFO)").data⟩

def validateFPL (raw : Str) : FPLValidation :=
  match parseFPL raw with
  | none =>
    { parsed := none, field18Parsed := [], results := [formatErrorFinding],
      summary := ⟨1, 0, 0, 0⟩ }
  | some parsed =>
    let results0 :=
      [⟨"Format".data, .success, "FPL message parsed successfully".data,
        none⟩] ++
      validateField7 parsed.field7 ++
      validateField8 parsed.field8 ++
      validateField9 parsed.field9 ++
      validateField13 parsed.field13 ++
      validateField15 parsed.field15 ++
      validateField16 parsed.field16
    let field18Parsed := parseField18 parsed.field18
    let equipStr :=
      if parsed.field10.isEmpty then parsed.field9 else parsed.field10
    let results1 :=
      results0 ++ validateField18Parsed field18Parsed parsed.field8 equipStr
    let errors := countSev results1 .error
    let results2 :=
      results1 ++
      (if errors = 0 then
        [⟨"CADAS-ATS".data, .success,
          "Flight plan appears ready for CADAS-ATS entry".data, none⟩]
       else
        [⟨"CADAS-ATS".data, .error,
          natDigits errors ++
          " error(s) must be resolved before filing in CADAS-ATS".data,
          none⟩])
    { parsed := some parsed, field18Parsed := field18Parsed,
      results := results2,
      summary := ⟨countSev results2 .error, countSev results2 .warning,
                  countSev results2 .info, countSev results2 .success⟩ }

/-- `validateField18Only`: the Field 18 sub-pipeline with Field 8/Field 10
treated as absent. -/
def validateField18Only (text : Str) : List ValidationResult :=
  validateField18Parsed (parseField18 text) [] []

-- ── NOTAM decoder (`src/lib/notam-parser.ts`) ───────────────────────────────

/-- The abbreviation dictionary, in object-literal insertion order.  The
source literal repeats the keys `TDZ` and `BTN` once each with identical
values; a JavaScript object keeps one entry at the first position, which is
what this list records. -/
def ABBREVIATIONS : List (Str × Str) := [
  ("AD".data, "Aerodrome".data),
  ("AERODROME".data, "Aerodrome".data),
  ("RWY".data, "Runway".data),
  ("TWY".data, "Taxiway".data),
  ("APRON".data, "Apron".data),
  ("APN".data, "Apron".data),
  ("THR".data, "Threshold".data),
  ("TDZ".data, "Touchdown Zone".data),
  ("DTHR".data, "Displaced Threshold".data),
  ("SFC".data, "Surface".data),
  ("GND".data, "Ground".data),
  ("ACFT".data, "Aircraft".data),
  ("AP".data, "Airport".data),
  ("HP".data, "Heliport".data),
  ("CLSD".data, "Closed".data),
  ("OPN".data, "Open".data),
  ("OPEN".data, "Open".data),
  ("AVBL".data, "Available".data),
  ("NOT AVBL".data, "Not Available".data),
  ("U/S".data, "Unserviceable".data),
  ("UNSERVICEABLE".data, "Unserviceable".data),
  ("SKED".data, "Scheduled".data),
  ("UNSKED".data, "Unscheduled".data),
  ("WIP".data, "Work in Progress".data),
  ("MAINT".data, "Maintenance".data),
  ("CONSTR".data, "Construction".data),
  ("REPAIR".data, "Repair".data),
  ("INSP".data, "Inspection".data),
  ("INSPECTION".data, "Inspection".data),
  ("OPER".data, "Operational".data),
  ("OPS".data, "Operations".data),
  ("PROC".data, "Procedure".data),
  ("DUE".data, "Due to".data),
  ("DUE TO".data, "Due to".data),
  ("HR".data, "Hours".data),
  ("HRS".data, "Hours".data),
  ("H24".data, "24 Hours / Continuous".data),
  ("DAILY".data, "Daily".data),
  ("PERM".data, "Permanent".data),
  ("TEMPO".data, "Temporary".data),
  ("TIL".data, "Until".data),
  ("UFN".data, "Until Further Notice".data),
  ("WEF".data, "With Effect From".data),
  ("BTN".data, "Between".data),
  ("FM".data, "From".data),
  ("EST".data, "Estimated".data),
  ("SR".data, "Sunrise".data),
  ("SS".data, "Sunset".data),
  ("LGT".data, "Lighting".data),
  ("LGTD".data, "Lighted".data),
  ("UNLGTD".data, "Unlighted".data),
  ("ALS".data, "Approach Lighting System".data),
  ("PAPI".data, "PAPI".data),
  ("VASI".data, "VASI".data),
  ("ABN".data, "Aerodrome Beacon".data),
  ("REIL".data, "Runway End Identifier Lights".data),
  ("CL".data, "Centreline".data),
  ("NAV".data, "Navigation".data),
  ("NAVAID".data, "Navigation Aid".data),
  ("ILS".data, "ILS (Instrument Landing System)".data),
  ("ILS/DME".data, "ILS with DME".data),
  ("VOR".data, "VOR".data),
  ("VOR/DME".data, "VOR with DME".data),
  ("NDB".data, "NDB".data),
  ("DME".data, "DME (Distance Measuring Equipment)".data),
  ("GP".data, "Glide Path".data),
  ("LOC".data, "Localizer".data),
  ("TACAN".data, "TACAN".data),
  ("GNSS".data, "GNSS".data),
  ("RNAV".data, "Area Navigation".data),
  ("RNP".data, "Required Navigation Performance".data),
  ("PBN".data, "Performance Based Navigation".data),
  ("COM".data, "Communication".data),
  ("FREQ".data, "Frequency".data),
  ("RTF".data, "Radiotelephony".data),
  ("VHF".data, "VHF".data),
  ("UHF".data, "UHF".data),
  ("HF".data, "HF".data),
  ("ATIS".data, "ATIS".data),
  ("VOLMET".data, "VOLMET".data),
  ("ACARS".data, "ACARS".data),
  ("CPDLC".data, "CPDLC".data),
  ("SELCAL".data, "SELCAL".data),
  ("SATCOM".data, "Satellite Communication".data),
  ("CTAF".data, "Common Traffic Advisory Frequency".data),
  ("OBST".data, "Obstacle".data),
  ("CRANE".data, "Crane".data),
  ("BLDG".data, "Building".data),
  ("ANT".data, "Antenna".data),
  ("TOWER".data, "Tower".data),
  ("POLE".data, "Pole".data),
  ("STACK".data, "Chimney/Stack".data),
  ("MAST".data, "Mast".data),
  ("ELEV".data, "Elevation".data),
  ("HGT".data, "Height".data),
  ("AGL".data, "Above Ground Level".data),
  ("AMSL".data, "Above Mean Sea Level".data),
  ("CTN".data, "Caution".data),
  ("ADZ".data, "Advise".data),
  ("REQ".data, "Required".data),
  ("AUTH".data, "Authorized".data),
  ("PROHIBITED".data, "Prohibited".data),
  ("PROH".data, "Prohibited".data),
  ("RESTRICTED".data, "Restricted".data),
  ("RSTR".data, "Restricted".data),
  ("DANGER".data, "Danger".data),
  ("HAZ".data, "Hazard".data),
  ("BIRD".data, "Bird".data),
  ("WILDLIFE".data, "Wildlife".data),
  ("FOD".data, "Foreign Object Debris".data),
  ("CTA".data, "Control Area".data),
  ("TMA".data, "Terminal Control Area".data),
  ("CTR".data, "Control Zone".data),
  ("FIR".data, "Flight Information Region".data),
  ("UIR".data, "Upper Information Region".data),
  ("UTA".data, "Upper Control Area".data),
  ("OCA".data, "Oceanic Control Area".data),
  ("ATZ".data, "Aerodrome Traffic Zone".data),
  ("ADIZ".data, "Air Defense Identification Zone".data),
  ("P".data, "Prohibited Area".data),
  ("R".data, "Restricted Area".data),
  ("D".data, "Danger Area".data),
  ("TRA".data, "Temporary Reserved Area".data),
  ("TSA".data, "Temporary Segregated Area".data),
  ("ATS".data, "Air Traffic Services".data),
  ("ATC".data, "Air Traffic Control".data),
  ("TWR".data, "Tower".data),
  ("APP".data, "Approach".data),
  ("ACC".data, "Area Control Centre".data),
  ("FIS".data, "Flight Information Service".data),
  ("AFIS".data, "Aerodrome Flight Information Service".data),
  ("ARR".data, "Arrival".data),
  ("DEP".data, "Departure".data),
  ("APCH".data, "Approach".data),
  ("SID".data, "Standard Instrument Departure".data),
  ("STAR".data, "Standard Arrival Route".data),
  ("IAP".data, "Instrument Approach Procedure".data),
  ("MAP".data, "Missed Approach Procedure".data),
  ("HOLD".data, "Holding".data),
  ("RVSM".data, "RVSM".data),
  ("MET".data, "Meteorological".data),
  ("METAR".data, "METAR".data),
  ("TAF".data, "TAF".data),
  ("SIGMET".data, "Significant Meteorological Information".data),
  ("AIRMET".data, "Airmen Meteorological Information".data),
  ("CB".data, "Cumulonimbus".data),
  ("TS".data, "Thunderstorm".data),
  ("FG".data, "Fog".data),
  ("ICE".data, "Ice/Icing".data),
  ("TURB".data, "Turbulence".data),
  ("WIND".data, "Wind".data),
  ("VIS".data, "Visibility".data),
  ("RVR".data, "Runway Visual Range".data),
  ("NOTAM".data, "Notice to Air Missions".data),
  ("NOTAMN".data, "New NOTAM".data),
  ("NOTAMR".data, "Replacement NOTAM".data),
  ("NOTAMC".data, "Cancellation NOTAM".data),
  ("ASHTAM".data, "Volcanic Ash NOTAM".data),
  ("SNOWTAM".data, "Snow Condition NOTAM".data),
  ("BIRDTAM".data, "Bird Activity NOTAM".data),
  ("ASPH".data, "Asphalt".data),
  ("CONC".data, "Concrete".data),
  ("GRS".data, "Grass".data),
  ("WET".data, "Wet".data),
  ("DRY".data, "Dry".data),
  ("SNOW".data, "Snow covered".data),
  ("ICY".data, "Icy".data),
  ("GRVL".data, "Gravel".data),
  ("BRKG".data, "Braking".data),
  ("N".data, "North".data),
  ("S".data, "South".data),
  ("E".data, "East".data),
  ("W".data, "West".data),
  ("NE".data, "Northeast".data),
  ("NW".data, "Northwest".data),
  ("SE".data, "Southeast".data),
  ("SW".data, "Southwest".data),
  ("FT".data, "Feet".data),
  ("M".data, "Metres".data),
  ("KT".data, "Knots".data),
  ("KM".data, "Kilometres".data),
  ("NM".data, "Nautical Miles".data),
  ("FL".data, "Flight Level".data),
  ("QNH".data, "QNH (Altimeter Setting)".data),
  ("TFC".data, "Traffic".data),
  ("PAX".data, "Passengers".data),
  ("CRW".data, "Crew".data),
  ("EMERG".data, "Emergency".data),
  ("SAR".data, "Search and Rescue".data),
  ("MIL".data, "Military".data),
  ("CIV".data, "Civil".data),
  ("PPR".data, "Prior Permission Required".data),
  ("PN".data, "Prior Notice".data),
  ("ABV".data, "Above".data),
  ("BLW".data, "Below".data),
  ("VIC".data, "Vicinity".data),
  ("BCST".data, "Broadcast".data),
  ("MON".data, "Monitor".data),
  ("OAT".data, "Outside Air Temperature".data),
  ("MAX".data, "Maximum".data),
  ("MIN".data, "Minimum".data),
  ("PSN".data, "Position".data),
  ("COORD".data, "Coordinates".data),
  ("ACAS".data, "Airborne Collision Avoidance System".data),
  ("TCAS".data, "Traffic Collision Avoidance System".data),
  ("EFF".data, "Effective".data),
  ("POSS".data, "Possible".data),
  ("EXPT".data, "Expect".data)]

/-- Stable insertion (descending key length) for the abbreviation entries,
modelling the stable `Object.entries(..).sort((a, b) => b[0].length -
a[0].length)`. -/
def insDescKeyLen (x : Str × Str) :
    List (Str × Str) → List (Str × Str)
  | [] => [x]
  | y :: ys =>
    if y.1.length ≥ x.1.length then y :: insDescKeyLen x ys
    else x :: y :: ys

def sortDescKeyLen (l : List (Str × Str)) : List (Str × Str) :=
  l.foldl (fun acc x => insDescKeyLen x acc) []

def abbrevSorted : List (Str × Str) := sortDescKeyLen ABBREVIATIONS

/-- `decodeNotamText`: longest-key-first whole-word abbreviation expansion
over the evolving string, then the two runway rewrites, then whitespace
collapapsing and trimming.  (The source's `escapeRegex` only serves to treat
the key literally inside the constructed pattern, which the scanner does by
construction.) -/
def decodeNotamText (text : Str) : Str :=
  let decoded :=
    abbrevSorted.foldl (fun acc kv => replaceWordAll kv.1 kv.2 acc) text
  let decoded := rwyPairRewrite decoded
  let decoded := rwySingleRewrite decoded
  trimC (collapseWs decoded)

def formatNotamDate (dateStr : Str) : Str :=
  if dateStr.isEmpty then []
  else if upperC dateStr = "PERM".data then "Permanent".data
  else if upperC dateStr = "UFN".data then "Until Further Notice".data
  else if upperC dateStr = "EST".data then "Estimated".data
  else if dateStr.length ≥ 10 then
    let year := jsSubstring dateStr 0 2
    let month := jsSubstring dateStr 2 4
    let day := jsSubstring dateStr 4 6
    let hour := jsSubstring dateStr 6 8
    let mn := jsSubstring dateStr 8 10
    let monthNames : List Str :=
      [[], "Jan".data, "Feb".data, "Mar".data, "Apr".data, "May".data,
       "Jun".data, "Jul".data, "Aug".data, "Sep".data, "Oct".data,
       "Nov".data, "Dec".data]
    let mName :=
      match parseIntJS month with
      | some i =>
        match monthNames.get? i.toNat with
        | some nm => if nm.isEmpty then month else nm
        | none => month
      | none => month
    day ++ " ".data ++ mName ++ " 20".data ++ year ++ " ".data ++ hour ++
      ":".data ++ mn ++ " UTC".data
  else dateStr

structure QLine where
  fir : Str
  qCode : Str
  traffic : Str
  purpose : Str
  scope : Str
  lowerAlt : Str
  upperAlt : Str
  coordinates : Str
deriving DecidableEq

structure DecodedNotam where
  id : Str
  series : Str
  number : Str
  year : Str
  type : Str
  typeLabel : Str
  qLine : Option QLine
  location : Str
  validFrom : Str
  validFromFormatted : Str
  validTo : Str
  validToFormatted : Str
  schedule : Str
  rawText : Str
  decodedText : Str
  lowerAlt : Str
  upperAlt : Str
  category : Str
  categoryLabel : Str
  conditionLabel : Str
deriving DecidableEq

/-- The mutable loop state of `decodeNotam`: the partial result record plus
`currentSection` and the accumulated `eText`. -/
structure NotamState where
  series : Str := []
  number : Str := []
  year : Str := []
  type : Str := []
  id : Str := []
  typeLabel : Str := []
  qLine : Option QLine := none
  location : Str := []
  validFrom : Str := []
  validFromFormatted : Str := []
  validTo : Str := []
  validToFormatted : Str := []
  schedule : Str := []
  lowerAlt : Str := []
  upperAlt : Str := []
  category : Str := []
  categoryLabel : Str := []
  conditionLabel : Str := []
  currentSection : Str := []
  eText : Str := []
deriving DecidableEq

/-- `parts[i] || d` for the Q-line parts (an empty part is falsy). -/
def partOr (parts : List Str) (i : Nat) (d : Str) : Str :=
  match parts.get? i with
  | some v => if v.isEmpty then d else v
  | none => d

/-- `line.startsWith(xy)` for a two-character section tag. -/
def startsWith2 (a b : Char) (line : Str) : Bool :=
  match line with
  | x :: y :: _ => x = a && y = b
  | _ => false

def startsQ (line : Str) : Bool := startsWith2 'Q' ')' line

/-- `line.match(/^[A-G]\)/)`. -/
def isSectionAG (line : Str) : Bool :=
  match line with
  | a :: ')' :: _ => 'A' ≤ a && a ≤ 'G'
  | _ => false

def endsParen (line : Str) : Bool :=
  match line.reverse with
  | ')' :: _ => true
  | _ => false

/-- One iteration of the `for (const line of lines)` loop of `decodeNotam`. -/
def notamStep (st : NotamState) (line : Str) : NotamState :=
  match idSearch line with
  | some m =>
    { st with
      series := m.1, number := m.2.1, year := m.2.2.1, type := m.2.2.2,
      id := m.1 ++ m.2.1 ++ "/".data ++ m.2.2.1,
      typeLabel :=
        if m.2.2.2 = "NOTAMN".data then "New NOTAM".data
        else if m.2.2.2 = "NOTAMR".data then "Replacement NOTAM".data
        else "Cancellation NOTAM".data }
  | none =>
    if startsQ line then
      let qRaw := trimC (line.drop 2)
      let parts := splitCharC '/' qRaw
      if parts.length ≥ 8 then
        let qCode := partOr parts 1 []
        let subjectCode := if qCode.length ≥ 4 then charAt qCode 2 else []
        let conditionCode := if qCode.length ≥ 5 then charAt qCode 4 else []
        { st with
          qLine := some
            ⟨trimC ((parts.get? 0).getD []), qCode, partOr parts 2 [],
             partOr parts 3 [], partOr parts 4 [], partOr parts 5 "000".data,
             partOr parts 6 "999".data, partOr parts 7 []⟩,
          category := qCode,
          categoryLabel := (alookup QCODE_SUBJECT subjectCode).getD qCode,
          conditionLabel := (alookup QCODE_CONDITION conditionCode).getD [],
          lowerAlt := partOr parts 5 "000".data,
          upperAlt := partOr parts 6 "999".data }
      else st
    else if startsWith2 'A' ')' line then
      { st with location := trimC (line.drop 2), currentSection := "A".data }
    else if startsWith2 'B' ')' line then
      let v := trimC (line.drop 2)
      { st with
        validFrom := v, validFromFormatted := formatNotamDate v,
        currentSection := "B".data }
    else if startsWith2 'C' ')' line then
      let v := trimC (line.drop 2)
      { st with
        validTo := v, validToFormatted := formatNotamDate v,
        currentSection := "C".data }
    else if startsWith2 'D' ')' line then
      { st with schedule := trimC (line.drop 2), currentSection := "D".data }
    else if startsWith2 'E' ')' line then
      { st with eText := trimC (line.drop 2), currentSection := "E".data }
    else if startsWith2 'F' ')' line then
      { st with lowerAlt := trimC (line.drop 2), currentSection := "F".data }
    else if startsWith2 'G' ')' line then
      { st with upperAlt := trimC (line.drop 2), currentSection := "G".data }
    else if st.currentSection = "E".data && !isSectionAG line &&
            !endsParen line then
      { st with eText := st.eText ++ ' ' :: line }
    else st

/-- Assembles the final record from the loop state (the E-text cleanup and
the two text fields). -/
def notamFinish (st : NotamState) : DecodedNotam :=
  let e := trimC (stripParenSpacesEnd st.eText)
  { id := st.id, series := st.series, number := st.number, year := st.year,
    type := st.type, typeLabel := st.typeLabel, qLine := st.qLine,
    location := st.location, validFrom := st.validFrom,
    validFromFormatted := st.validFromFormatted, validTo := st.validTo,
    validToFormatted := st.validToFormatted, schedule := st.schedule,
    rawText := e, decodedText := decodeNotamText e,
    lowerAlt := st.lowerAlt, upperAlt := st.upperAlt,
    category := st.category, categoryLabel := st.categoryLabel,
    conditionLabel := st.conditionLabel }

def decodeNotamLines (lines : List Str) : DecodedNotam :=
  notamFinish (lines.foldl notamStep {})

/-- `raw.trim().split("\n").map((l) => l.trim())`. -/
def notamLines (raw : Str) : List Str :=
  (splitCharC '\n' (trimC raw)).map trimC

def decodeNotam (raw : Str) : DecodedNotam :=
  decodeNotamLines (notamLines raw)

-- ── Helpers used only by claim statements ───────────────────────────────────

/-- Whether `sub` occurs as a contiguous substring of `s`. -/
def containsSub (sub : Str) : Str → Bool
  | [] => sub.isEmpty
  | c :: t => sub.isPrefixOf (c :: t) || containsSub sub t

-- ── Concrete inputs used by witnesses and counterexamples ───────────────────

def c1raw : String := "NOT A FLIGHT PLAN"

def c5badRaw : String := "ABC-IS-R-OSA0800-N0450F360 DCT-OOMS0130"

def c5goodRaw : String := "ABC-IS-R-OSA0800-N0450F360 DCT-OOMS0130-REG/A4O"

def c4raw : String := "(A1234/26 NOTAMN\nE) FIRST PART\nSECOND PART)"

def c9raw : String :=
  "(A0456/26 NOTAMN\nQ) OOMM/QILAS\nA) OOSA\nE) ILS RWY 07 U/S)"

def c3text : String := "XYZ/FOO PBN/A1"

-- ── General lemmas ──────────────────────────────────────────────────────────

/-- Two lists with a fixed mismatch inside their common prefix length are
different, whatever their tails. -/
theorem ne_append_of_getElem {a b x y : Str} (i : Nat) (ha : i < a.length)
    (hb : i < b.length) (hne : a[i]? ≠ b[i]?) : a ++ x ≠ b ++ y := by
  intro h
  apply hne
  have h1 : (a ++ x)[i]? = a[i]? := List.getElem?_append_left ha
  have h2 : (b ++ y)[i]? = b[i]? := List.getElem?_append_left hb
  rw [← h1, ← h2, h]

theorem ne_append_lit {a b x : Str} (i : Nat) (ha : i < a.length)
    (hb : i < b.length) (hne : a[i]? ≠ b[i]?) : a ++ x ≠ b := by
  intro h
  apply hne
  have h1 : (a ++ x)[i]? = a[i]? := List.getElem?_append_left ha
  rw [← h1, h]

/-- `isPrefixOf` fails whenever the candidate disagrees inside the pattern's
length. -/
theorem isPfxFalseAt : ∀ (l m : Str) (i : Nat), i < l.length →
    l[i]? ≠ m[i]? → l.isPrefixOf m = false
  | [], _, i, hi, _ => by simp at hi
  | _ :: _, [], _, _, _ => by simp [List.isPrefixOf]
  | a :: l, b :: m, 0, _, hne => by
    simp only [List.isPrefixOf, Bool.and_eq_false_iff]
    left
    simp only [List.getElem?_cons_zero, ne_eq, Option.some.injEq] at hne
    simp [hne]
  | a :: l, b :: m, i + 1, hi, hne => by
    simp only [List.isPrefixOf, Bool.and_eq_false_iff]
    right
    exact isPfxFalseAt l m i (by simpa using hi) (by simpa using hne)

/-- `isPrefixOf` against an appended tail only depends on the first
`b.length` characters when the pattern mismatches inside them. -/
theorem isPfxFalseAppend {l b : Str} (x : Str) (i : Nat) (hi : i < l.length)
    (hb : i < b.length) (hne : l[i]? ≠ b[i]?) :
    l.isPrefixOf (b ++ x) = false := by
  apply isPfxFalseAt l (b ++ x) i hi
  rw [List.getElem?_append_left hb]
  exact hne

/-- The four severity counts of a finding list always sum to its length. -/
theorem countSev_partition (rs : List ValidationResult) :
    countSev rs .error + countSev rs .warning + countSev rs .info +
      countSev rs .success = rs.length := by
  induction rs with
  | nil => simp [countSev]
  | cons r t ih =>
    cases hs : r.severity <;>
      simp [countSev, List.filter_cons, hs] at ih ⊢ <;> omega

-- ── C10: the summary partitions the findings by severity ────────────────────

/-- C10: for every input string, each summary count of `validateFPL` equals
the number of findings with that exact severity, and the four counts sum to
the total number of findings returned. -/
theorem C10_summary_partition (raw : Str) :
    (validateFPL raw).summary.errors =
      countSev (validateFPL raw).results .error ∧
    (validateFPL raw).summary.warnings =
      countSev (validateFPL raw).results .warning ∧
    (validateFPL raw).summary.info =
      countSev (validateFPL raw).results .info ∧
    (validateFPL raw).summary.success =
      countSev (validateFPL raw).results .success ∧
    (validateFPL raw).summary.errors + (validateFPL raw).summary.warnings +
      (validateFPL raw).summary.info + (validateFPL raw).summary.success =
      (validateFPL raw).results.length := by
  cases hp : parseFPL raw with
  | none =>
    simp only [validateFPL, hp]
    refine ⟨by decide, by decide, by decide, by decide, by decide⟩
  | some p =>
    simp only [validateFPL, hp]
    exact ⟨trivial, trivial, trivial, trivial, countSev_partition _⟩

-- ── C1: double extraction failure yields one fatal Format finding ───────────

/-- C1: whenever the strict pattern does not match the normalised input and
the lenient hyphen split yields fewer than six parts, `parseFPL` returns
`none` (no exception: the embedding is a total function), and `validateFPL`
returns exactly one Finding — field `Format`, severity `error` — together
with a null parsed record, an empty Field 18 map, and a summary of one error
and zero warnings/info/success; no field-level findings are produced. -/
theorem C1_parse_failure_single_format_error (raw : Str)
    (h1 : strictMatch (cleanFPL raw) = none)
    (h2 : (lenientParts (cleanFPL raw)).length < 6) :
    parseFPL raw = none ∧
    validateFPL raw =
      { parsed := none, field18Parsed := [], results := [formatErrorFinding],
        summary := ⟨1, 0, 0, 0⟩ } := by
  have hp : parseFPL raw = none := by
    simp only [parseFPL, h1]
    rw [if_neg]
    omega
  exact ⟨hp, by simp only [validateFPL, hp]⟩

/-- Witness for C1 at a concrete unparsable input. -/
theorem C1_witness :
    parseFPL c1raw.data = none ∧
    validateFPL c1raw.data =
      { parsed := none, field18Parsed := [], results := [formatErrorFinding],
        summary := ⟨1, 0, 0, 0⟩ } :=
  C1_parse_failure_single_format_error c1raw.data (by decide) (by decide)

-- ── C2 counterexample: the abbreviation expander is not idempotent ──────────

/-- C2 counterexample: the table expands `ILS` to a phrase that itself
contains the whole word `ILS`, so a second pass expands again. -/
theorem C2_counterexample :
    decodeNotamText (decodeNotamText "ILS".data) ≠
      decodeNotamText "ILS".data := by decide

-- ── C4 counterexample: a continuation line ending in `)` is dropped ─────────

/-- C4 counterexample: the final E-section line `SECOND PART)` ends with the
closing parenthesis, so `decodeNotam` skips it entirely; its text does not
appear in `rawText`, contradicting the claim that every continuation line's
text up to the closing parenthesis is included. -/
theorem C4_counterexample :
    (decodeNotam c4raw.data).rawText = "FIRST PART".data ∧
    (decodeNotam c4raw.data).rawText ≠ "FIRST PART SECOND PART".data := by
  decide

-- ── C7 counterexample: unknown equipment codes are aggregated ───────────────

/-- C7 counterexample: the COM/NAV half `QQ` has two unmatched characters but
`validateField10` returns a single aggregate warning listing both, not one
finding per character. -/
theorem C7_counterexample :
    (tokenizeEquip EQUIPMENT_COM_NAV "QQ".data).2 = ["Q".data, "Q".data] ∧
    validateField10 "QQ".data =
      [⟨"Field 10".data, .warning, "Unknown COM/NAV codes: Q, Q".data,
        none⟩] := by decide

-- ── C3 counterexample: unrecognized Field 18 tokens produce no finding ──────

/-- C3 counterexample: the token `XYZ/FOO` matches no known prefix; it is
omitted from the map, and no finding of `validateField18Only` mentions it
(in particular no `Unknown prefix` warning is emitted). -/
theorem C3_counterexample :
    alookup (parseField18 c3text.data) "XYZ".data = none ∧
    (validateField18Only c3text.data).all
      (fun f => !containsSub "XYZ".data f.message) = true ∧
    (validateField18Only c3text.data).all
      (fun f => !("Unknown prefix: ".data.isPrefixOf f.message)) = true := by
  decide

-- ── C6: EOBT range validation on Field 13 ───────────────────────────────────

/-- The EOBT slice of a Field 13 value. -/
def eobtOf (s : Str) : Str := jsSubstring s 4 8

def eobtErrFinding (s : Str) : ValidationResult :=
  ⟨"Field 13".data, .error, "Invalid EOBT time: ".data ++ eobtOf s, none⟩

def eobtSuccFinding (s : Str) : ValidationResult :=
  ⟨"Field 13".data, .success, "EOBT: ".data ++ eobtOf s ++ "Z".data, none⟩

def eobtHour (s : Str) : Nat := parseNat (jsSubstring (eobtOf s) 0 2)

def eobtMinute (s : Str) : Nat := parseNat (jsSubstring (eobtOf s) 2 4)

theorem length_eobtOf (s : Str) (h1 : 8 ≤ s.length) :
    (eobtOf s).length = 4 := by
  simp only [eobtOf, jsSubstring, List.length_take, List.length_drop]
  omega

theorem length_dep4 (s : Str) (h1 : 8 ≤ s.length) :
    (upperC (jsSubstring s 0 4)).length = 4 := by
  simp only [upperC, List.length_map, jsSubstring, List.length_take,
    List.length_drop]
  omega

/-- The out-of-range test of the EOBT slice (`hours > 23 || minutes > 59`). -/
def eobtBad (s : Str) : Bool := eobtHour s > 23 || eobtMinute s > 59

/-- C6: on any Field 13 value of at least eight characters whose first four
characters uppercase to a well-formed four-letter ICAO code and whose EOBT
slice is four digits, `validateField13` emits the error finding
`Invalid EOBT time` exactly when the hour exceeds 23 or the minute exceeds
59 (`eobtBad`), and the success finding `EOBT: ...Z` exactly otherwise.  In
particular an EOBT of `2400` yields the error finding and `2359` the
success finding (see the witness). -/
theorem C6_eobt_validation (s : Str) (h1 : 8 ≤ s.length)
    (h2 : (upperC (jsSubstring s 0 4)).all isUpperC = true)
    (h3 : (eobtOf s).all isDigitC = true) :
    (eobtErrFinding s ∈ validateField13 s ↔ eobtBad s = true) ∧
    (eobtSuccFinding s ∈ validateField13 s ↔ eobtBad s = false) := by
  have hne : s.isEmpty = false := by
    cases s with
    | nil => simp at h1
    | cons a t => simp [List.isEmpty]
  have hlt : decide (s.length < 8) = false := by
    simp
    omega
  have hdep : (decide ((upperC (jsSubstring s 0 4)).length = 4) &&
      (upperC (jsSubstring s 0 4)).all isUpperC) = true := by
    rw [h2, length_dep4 s h1]
    simp
  have heobt : (decide ((jsSubstring s 4 8).length = 4) &&
      (jsSubstring s 4 8).all isDigitC) = true := by
    have h3' : (jsSubstring s 4 8).all isDigitC = true := h3
    have hl : (jsSubstring s 4 8).length = 4 := length_eobtOf s h1
    rw [h3', hl]
    simp
  have hlist : validateField13 s =
      [⟨"Field 13".data, .success,
        "Departure: ".data ++ (upperC (jsSubstring s 0 4) ++
        parenName (alookup COMMON_AIRPORTS (upperC (jsSubstring s 0 4)))),
        none⟩] ++
      (if eobtBad s = true then [eobtErrFinding s]
       else [eobtSuccFinding s]) ++
      (if (alookup OMAN_AIRPORTS (upperC (jsSubstring s 0 4))).isSome then
        [⟨"Field 13".data, .info,
          ("Oman CAR-172: FPL must be filed at least 60 minutes before " ++
           "EOBT for IFR flights in Muscat FIR").data, none⟩]
       else []) := by
    simp only [validateField13, hne, hlt, hdep, heobt, eobtBad, eobtHour,
      eobtMinute, eobtErrFinding, eobtSuccFinding, eobtOf, Bool.or_false,
      Bool.false_or, Bool.not_true, Bool.false_eq_true, if_false,
      List.append_assoc]
  have hsev : ∀ (r : ValidationResult) (hr : r.severity = Severity.info ∨
      r.severity = Severity.success),
      r ∈ (if (alookup OMAN_AIRPORTS (upperC (jsSubstring s 0 4))).isSome then
        [(⟨"Field 13".data, .info,
          ("Oman CAR-172: FPL must be filed at least 60 minutes before " ++
           "EOBT for IFR flights in Muscat FIR").data, none⟩ :
           ValidationResult)]
       else []) → r.severity = Severity.info := by
    intro r _ hmem
    split at hmem
    · simp only [List.mem_singleton] at hmem
      rw [hmem]
    · simp at hmem
  constructor
  · rw [hlist]
    constructor
    · intro hmem
      by_contra hcond
      rw [if_neg hcond] at hmem
      rcases List.mem_append.mp hmem with h2 | h3
      · rcases List.mem_append.mp h2 with h4 | h5
        · simp only [List.mem_singleton] at h4
          exact absurd (congrArg ValidationResult.severity h4)
            (by simp [eobtErrFinding])
        · simp only [List.mem_singleton] at h5
          exact absurd (congrArg ValidationResult.severity h5)
            (by simp [eobtErrFinding, eobtSuccFinding])
      · split at h3
        · simp only [List.mem_singleton] at h3
          exact absurd (congrArg ValidationResult.severity h3)
            (by simp [eobtErrFinding])
        · simp at h3
    · intro hcond
      rw [if_pos hcond]
      simp
  · rw [hlist]
    constructor
    · intro hmem
      cases hcond : eobtBad s with
      | false => rfl
      | true =>
        rw [if_pos hcond] at hmem
        rcases List.mem_append.mp hmem with h2 | h3
        · rcases List.mem_append.mp h2 with h4 | h5
          · simp only [List.mem_singleton] at h4
            have hm := congrArg ValidationResult.message h4
            simp only [eobtSuccFinding, List.append_assoc] at hm
            exact absurd hm
              (ne_append_of_getElem 0 (by decide) (by decide) (by decide))
          · simp only [List.mem_singleton] at h5
            exact absurd (congrArg ValidationResult.severity h5)
              (by simp [eobtErrFinding, eobtSuccFinding])
        · split at h3
          · simp only [List.mem_singleton] at h3
            exact absurd (congrArg ValidationResult.severity h3)
              (by simp [eobtSuccFinding])
          · simp at h3
    · intro hcond
      rw [if_neg (by simp [hcond])]
      simp

set_option maxHeartbeats 2000000 in
/-- Witness for C6 at `OOSA2400` (error) and `OOSA2359` (success). -/
theorem C6_witness :
    eobtErrFinding "OOSA2400".data ∈ validateField13 "OOSA2400".data ∧
    eobtSuccFinding "OOSA2359".data ∈ validateField13 "OOSA2359".data :=
  ⟨(C6_eobt_validation "OOSA2400".data (by decide) (by decide)
      (by decide)).1.mpr (by decide),
   (C6_eobt_validation "OOSA2359".data (by decide) (by decide)
      (by decide)).2.mpr (by decide)⟩

-- ── C7 amended: one aggregate unknown-codes warning per half ────────────────

/-- Number of findings in `rs` equal to `f`. -/
def countEq (rs : List ValidationResult) (f : ValidationResult) : Nat :=
  (rs.filter (fun r => r = f)).length

def comNavUnknownFinding (inv : List Str) : ValidationResult :=
  ⟨"Field 10".data, .warning,
   "Unknown COM/NAV codes: ".data ++ joinWith ", ".data inv, none⟩

def ssrUnknownFinding (inv : List Str) : ValidationResult :=
  ⟨"Field 10".data, .warning,
   "Unknown SSR codes: ".data ++ joinWith ", ".data inv, none⟩

theorem countEq_nil (f : ValidationResult) : countEq [] f = 0 := rfl

theorem countEq_append (l1 l2 : List ValidationResult) (f : ValidationResult) :
    countEq (l1 ++ l2) f = countEq l1 f + countEq l2 f := by
  simp [countEq, List.filter_append]

theorem countEq_cons_ne {a f : ValidationResult} (l : List ValidationResult)
    (h : ¬(a = f)) : countEq (a :: l) f = countEq l f := by
  simp [countEq, List.filter_cons, h]

theorem countEq_cons_self (l : List ValidationResult)
    (f : ValidationResult) : countEq (f :: l) f = countEq l f + 1 := by
  simp [countEq, List.filter_cons]

/-- C7 amended: for every equipment string, the characters of the COM/NAV
half that match no equipment code are reported by exactly one aggregate
warning Finding listing them all (joined with commas) — one Finding per
half, not one per character — and likewise for the SSR half. -/
theorem C7_aggregate_unknown_codes (e : Str) :
    (comNavOf e ≠ "N".data →
      (tokenizeEquip EQUIPMENT_COM_NAV (comNavOf e)).2 ≠ [] →
      countEq (validateField10 e)
        (comNavUnknownFinding (tokenizeEquip EQUIPMENT_COM_NAV
          (comNavOf e)).2) = 1) ∧
    (ssrOf e ≠ "N".data →
      (tokenizeEquip EQUIPMENT_SSR (ssrOf e)).2 ≠ [] →
      countEq (validateField10 e)
        (ssrUnknownFinding (tokenizeEquip EQUIPMENT_SSR (ssrOf e)).2) = 1) := by
  have hsevCN : ∀ inv msg d,
      ¬((⟨"Field 10".data, .success, msg, d⟩ : ValidationResult) =
        comNavUnknownFinding inv) := by
    intro inv msg d h
    exact absurd (congrArg ValidationResult.severity h) (by simp [comNavUnknownFinding])
  have hsevS : ∀ inv msg d,
      ¬((⟨"Field 10".data, .success, msg, d⟩ : ValidationResult) =
        ssrUnknownFinding inv) := by
    intro inv msg d h
    exact absurd (congrArg ValidationResult.severity h) (by simp [ssrUnknownFinding])
  have hinfoCN : ∀ inv msg d,
      ¬((⟨"Field 10".data, .info, msg, d⟩ : ValidationResult) =
        comNavUnknownFinding inv) := by
    intro inv msg d h
    exact absurd (congrArg ValidationResult.severity h) (by simp [comNavUnknownFinding])
  have hinfoS : ∀ inv msg d,
      ¬((⟨"Field 10".data, .info, msg, d⟩ : ValidationResult) =
        ssrUnknownFinding inv) := by
    intro inv msg d h
    exact absurd (congrArg ValidationResult.severity h) (by simp [ssrUnknownFinding])
  have hSvsCN : ∀ inv1 inv2,
      ¬(ssrUnknownFinding inv1 = comNavUnknownFinding inv2) := by
    intro inv1 inv2 h
    have hm := congrArg ValidationResult.message h
    simp only [ssrUnknownFinding, comNavUnknownFinding] at hm
    exact absurd hm (ne_append_of_getElem 8 (by decide) (by decide) (by decide))
  have hCNvsS : ∀ inv1 inv2,
      ¬(comNavUnknownFinding inv1 = ssrUnknownFinding inv2) := by
    intro inv1 inv2 h
    exact hSvsCN inv2 inv1 h.symm
  have hNoSurvCN : ∀ inv,
      ¬((⟨"Field 10".data, .warning,
          "No surveillance equipment declared".data, none⟩ :
          ValidationResult) = comNavUnknownFinding inv) := by
    intro inv h
    have hm := (congrArg ValidationResult.message h).symm
    simp only [comNavUnknownFinding] at hm
    exact absurd hm (ne_append_lit 0 (by decide) (by decide) (by decide))
  constructor
  · intro hN hinv
    have hcomne : comNavOf e ≠ [] := by
      intro h
      rw [h] at hinv
      exact hinv rfl
    have he : e.isEmpty = false := by
      cases e with
      | nil => exact absurd (by decide) hcomne
      | cons a t => simp [List.isEmpty]
    have hcomE : (comNavOf e).isEmpty = false := by
      cases hc : comNavOf e with
      | nil => exact absurd hc hcomne
      | cons a t => simp [List.isEmpty]
    simp only [validateField10, he, Bool.false_eq_true, if_false]
    rw [if_neg hN, if_pos (by simp [hcomE])]
    rw [countEq_append, countEq_append]
    have hc1 : countEq
        (if !(tokenizeEquip EQUIPMENT_COM_NAV (comNavOf e)).1.isEmpty then
          [⟨"Field 10".data, .success, "COM/NAV: ".data ++
            joinWith ", ".data (tokenizeEquip EQUIPMENT_COM_NAV
              (comNavOf e)).1, none⟩]
         else [])
        (comNavUnknownFinding (tokenizeEquip EQUIPMENT_COM_NAV
          (comNavOf e)).2) = 0 := by
      split
      · rw [countEq_cons_ne _ (hsevCN _ _ _), countEq_nil]
      · rw [countEq_nil]
    have hc2 : countEq
        (if !(tokenizeEquip EQUIPMENT_COM_NAV (comNavOf e)).2.isEmpty then
          [comNavUnknownFinding (tokenizeEquip EQUIPMENT_COM_NAV
            (comNavOf e)).2]
         else [])
        (comNavUnknownFinding (tokenizeEquip EQUIPMENT_COM_NAV
          (comNavOf e)).2) = 1 := by
      rw [if_pos]
      · rw [countEq_cons_self, countEq_nil]
      · cases hi : (tokenizeEquip EQUIPMENT_COM_NAV (comNavOf e)).2 with
        | nil => exact absurd hi hinv
        | cons a t => simp [List.isEmpty]
    have hc3 : countEq
        (if ssrOf e = "N".data then
          [⟨"Field 10".data, .warning,
            "No surveillance equipment declared".data, none⟩]
         else if !(ssrOf e).isEmpty then
          (if !(tokenizeEquip EQUIPMENT_SSR (ssrOf e)).1.isEmpty then
            [⟨"Field 10".data, .success, "SSR: ".data ++
              joinWith ", ".data (tokenizeEquip EQUIPMENT_SSR (ssrOf e)).1,
              none⟩]
           else []) ++
          (if !(tokenizeEquip EQUIPMENT_SSR (ssrOf e)).2.isEmpty then
            [ssrUnknownFinding (tokenizeEquip EQUIPMENT_SSR (ssrOf e)).2]
           else [])
         else [])
        (comNavUnknownFinding (tokenizeEquip EQUIPMENT_COM_NAV
          (comNavOf e)).2) = 0 := by
      split
      · rw [countEq_cons_ne _ (hNoSurvCN _), countEq_nil]
      · split
        · rw [countEq_append]
          have d1 : countEq
              (if !(tokenizeEquip EQUIPMENT_SSR (ssrOf e)).1.isEmpty then
                [⟨"Field 10".data, .success, "SSR: ".data ++
                  joinWith ", ".data
                    (tokenizeEquip EQUIPMENT_SSR (ssrOf e)).1, none⟩]
               else [])
              (comNavUnknownFinding (tokenizeEquip EQUIPMENT_COM_NAV
                (comNavOf e)).2) = 0 := by
            split
            · rw [countEq_cons_ne _ (hsevCN _ _ _), countEq_nil]
            · rw [countEq_nil]
          have d2 : countEq
              (if !(tokenizeEquip EQUIPMENT_SSR (ssrOf e)).2.isEmpty then
                [ssrUnknownFinding (tokenizeEquip EQUIPMENT_SSR (ssrOf e)).2]
               else [])
              (comNavUnknownFinding (tokenizeEquip EQUIPMENT_COM_NAV
                (comNavOf e)).2) = 0 := by
            split
            · rw [countEq_cons_ne _ (hSvsCN _ _), countEq_nil]
            · rw [countEq_nil]
          rw [d1, d2]
        · rw [countEq_nil]
    simp only [comNavUnknownFinding, ssrUnknownFinding] at hc1 hc2 hc3 ⊢
    rw [hc1, hc2, hc3]
  · intro hN hinv
    have hssrne : ssrOf e ≠ [] := by
      intro h
      rw [h] at hinv
      exact hinv rfl
    have he : e.isEmpty = false := by
      cases e with
      | nil => exact absurd (by decide) hssrne
      | cons a t => simp [List.isEmpty]
    have hssrE : (ssrOf e).isEmpty = false := by
      cases hc : ssrOf e with
      | nil => exact absurd hc hssrne
      | cons a t => simp [List.isEmpty]
    simp only [validateField10, he, Bool.false_eq_true, if_false]
    rw [countEq_append]
    have hc1 : countEq
        (if comNavOf e = "N".data then
          [⟨"Field 10".data, .info, "No COM/NAV equipment".data, none⟩]
         else if !(comNavOf e).isEmpty then
          (if !(tokenizeEquip EQUIPMENT_COM_NAV (comNavOf e)).1.isEmpty then
            [⟨"Field 10".data, .success, "COM/NAV: ".data ++
              joinWith ", ".data
                (tokenizeEquip EQUIPMENT_COM_NAV (comNavOf e)).1, none⟩]
           else []) ++
          (if !(tokenizeEquip EQUIPMENT_COM_NAV (comNavOf e)).2.isEmpty then
            [comNavUnknownFinding (tokenizeEquip EQUIPMENT_COM_NAV
              (comNavOf e)).2]
           else [])
         else [])
        (ssrUnknownFinding (tokenizeEquip EQUIPMENT_SSR (ssrOf e)).2) = 0 := by
      split
      · rw [countEq_cons_ne _ (hinfoS _ _ _), countEq_nil]
      · split
        · rw [countEq_append]
          have d1 : countEq
              (if !(tokenizeEquip EQUIPMENT_COM_NAV (comNavOf e)).1.isEmpty
               then
                [⟨"Field 10".data, .success, "COM/NAV: ".data ++
                  joinWith ", ".data
                    (tokenizeEquip EQUIPMENT_COM_NAV (comNavOf e)).1, none⟩]
               else [])
              (ssrUnknownFinding (tokenizeEquip EQUIPMENT_SSR
                (ssrOf e)).2) = 0 := by
            split
            · rw [countEq_cons_ne _ (hsevS _ _ _), countEq_nil]
            · rw [countEq_nil]
          have d2 : countEq
              (if !(tokenizeEquip EQUIPMENT_COM_NAV (comNavOf e)).2.isEmpty
               then
                [comNavUnknownFinding (tokenizeEquip EQUIPMENT_COM_NAV
                  (comNavOf e)).2]
               else [])
              (ssrUnknownFinding (tokenizeEquip EQUIPMENT_SSR
                (ssrOf e)).2) = 0 := by
            split
            · rw [countEq_cons_ne _ (hCNvsS _ _), countEq_nil]
            · rw [countEq_nil]
          rw [d1, d2]
        · rw [countEq_nil]
    simp only [comNavUnknownFinding, ssrUnknownFinding] at hc1 ⊢
    rw [hc1, if_neg hN, if_pos (by simp [hssrE]), countEq_append]
    have hd1 : countEq
        (if !(tokenizeEquip EQUIPMENT_SSR (ssrOf e)).1.isEmpty then
          [⟨"Field 10".data, .success, "SSR: ".data ++
            joinWith ", ".data (tokenizeEquip EQUIPMENT_SSR (ssrOf e)).1,
            none⟩]
         else [])
        (ssrUnknownFinding (tokenizeEquip EQUIPMENT_SSR (ssrOf e)).2) = 0 := by
      split
      · rw [countEq_cons_ne _ (hsevS _ _ _), countEq_nil]
      · rw [countEq_nil]
    have hd2 : countEq
        (if !(tokenizeEquip EQUIPMENT_SSR (ssrOf e)).2.isEmpty then
          [ssrUnknownFinding (tokenizeEquip EQUIPMENT_SSR (ssrOf e)).2]
         else [])
        (ssrUnknownFinding (tokenizeEquip EQUIPMENT_SSR (ssrOf e)).2) = 1 := by
      rw [if_pos]
      · rw [countEq_cons_self, countEq_nil]
      · cases hi : (tokenizeEquip EQUIPMENT_SSR (ssrOf e)).2 with
        | nil => exact absurd hi hinv
        | cons a t => simp [List.isEmpty]
    simp only [comNavUnknownFinding, ssrUnknownFinding] at hd1 hd2 ⊢
    rw [hd1, hd2]

/-- Witness for the amended C7 on `QQ/VV` (unknown codes in both halves). -/
theorem C7_aggregate_witness :
    countEq (validateField10 "QQ/VV".data)
      (comNavUnknownFinding (tokenizeEquip EQUIPMENT_COM_NAV
        (comNavOf "QQ/VV".data)).2) = 1 ∧
    countEq (validateField10 "QQ/VV".data)
      (ssrUnknownFinding (tokenizeEquip EQUIPMENT_SSR
        (ssrOf "QQ/VV".data)).2) = 1 :=
  ⟨(C7_aggregate_unknown_codes "QQ/VV".data).1 (by decide) (by decide),
   (C7_aggregate_unknown_codes "QQ/VV".data).2 (by decide) (by decide)⟩

-- ── C5 counterexample: the cross-check is skipped on an empty map ───────────

/-- C5 counterexample: this flight plan parses, its equipment string contains
`R`, and its Field 18 map has no `PBN` key — but the map is empty, so
`validateField18Parsed` returns early and no `Cross-check` finding at all is
produced. -/
theorem C5_counterexample :
    (parseFPL c5badRaw.data).isSome = true ∧
    ((parseFPL c5badRaw.data).map (fun p =>
        (if p.field10.isEmpty then p.field9 else p.field10).contains 'R' &&
        (alookup (parseField18 p.field18) "PBN".data).isNone &&
        (parseField18 p.field18).isEmpty)) = some true ∧
    (validateFPL c5badRaw.data).results.all
      (fun f => !(f.field = "Cross-check".data)) = true := by decide

-- ── C5 amended: the R cross-check fires whenever the map is nonempty ────────

def crossRFinding : ValidationResult :=
  ⟨"Cross-check".data, .error,
   "Field 10 includes R (PBN approved) but Field 18 has no PBN/ entry".data,
   some ("ICAO Doc 4444: If R is filed in Field 10, PBN/ must appear in " ++
         "Field 18").data⟩

/-- C5 amended: for every flight plan that `parseFPL` parses, if the letter
`R` appears in the equipment string (Field 10, or Field 9 when Field 10 is
empty, exactly as `validateFPL` selects it), the Field 18 map has no `PBN`
key, and the map is nonempty (the validator returns early with a single
`Field 18 is empty` warning otherwise — see the counterexample), then
`validateFPL` emits the error-severity `Cross-check` finding. -/
theorem C5_cross_check (raw : Str) (p : ParsedFPL)
    (hp : parseFPL raw = some p)
    (hR : (if p.field10.isEmpty then p.field9 else p.field10).contains 'R'
      = true)
    (hPBN : alookup (parseField18 p.field18) "PBN".data = none)
    (hne : parseField18 p.field18 ≠ []) :
    crossRFinding ∈ (validateFPL raw).results := by
  have hmE : (parseField18 p.field18).isEmpty = false := by
    cases h : parseField18 p.field18 with
    | nil => exact absurd h hne
    | cons a t => simp [List.isEmpty]
  have hT : truthyGet (parseField18 p.field18) "PBN".data = none := by
    simp [truthyGet, hPBN]
  simp only [validateFPL, hp]
  refine List.mem_append.mpr (Or.inl (List.mem_append.mpr (Or.inr ?_)))
  simp only [validateField18Parsed, hmE, Bool.false_eq_true, if_false, hT,
    Option.isNone_none, hR, Bool.and_self, if_true, List.mem_append,
    List.mem_singleton]
  simp [crossRFinding]

/-- Witness for the amended C5: same message, but with a nonempty Field 18
(`REG/A4O`), so the `Cross-check` error is produced. -/
theorem C5_cross_check_witness :
    crossRFinding ∈ (validateFPL c5goodRaw.data).results :=
  C5_cross_check c5goodRaw.data
    { raw := c5goodRaw.data, field3 := "FPL".data, field7 := "ABC".data,
      field8 := "IS".data, field9 := "R".data, field10 := [],
      field13 := "OSA0800".data, field15 := "N0450F360 DCT".data,
      field16 := "OOMS0130".data, field18 := "REG/A4O".data,
      field19 := none }
    (by decide) (by decide) (by decide) (by decide)

-- ── C9: a Q line with fewer than eight parts is ignored entirely ────────────

/-- A Q) line whose slash split has fewer than eight parts (and which does
not accidentally contain a NOTAM identifier) leaves the decoder state
untouched. -/
theorem notamStep_inert (st : NotamState) (line : Str)
    (hq : startsQ line = true) (hid : idSearch line = none)
    (hparts : (splitCharC '/' (trimC (line.drop 2))).length < 8) :
    notamStep st line = st := by
  simp only [notamStep, hid, hq, if_true]
  rw [if_neg]
  omega

/-- No branch of the decoder loop other than the (≥ 8 parts) Q branch writes
the Q-derived fields. -/
theorem notamStep_qfields (st : NotamState) (line : Str)
    (hq : startsQ line = false) :
    (notamStep st line).qLine = st.qLine ∧
    (notamStep st line).category = st.category ∧
    (notamStep st line).categoryLabel = st.categoryLabel ∧
    (notamStep st line).conditionLabel = st.conditionLabel := by
  simp only [notamStep]
  cases hid : idSearch line with
  | some m => simp
  | none =>
    simp only [hq, Bool.false_eq_true, if_false]
    split_ifs <;> simp

theorem foldl_filterQ (ls : List Str)
    (h : ∀ l ∈ ls, startsQ l = true → idSearch l = none ∧
      (splitCharC '/' (trimC (l.drop 2))).length < 8) :
    ∀ st, ls.foldl notamStep st =
      (ls.filter (fun l => !startsQ l)).foldl notamStep st := by
  induction ls with
  | nil => intro st; rfl
  | cons a t ih =>
    intro st
    by_cases hq : startsQ a = true
    · obtain ⟨hid, hp⟩ := h a (List.mem_cons_self a t) hq
      rw [List.foldl_cons, notamStep_inert st a hq hid hp,
        List.filter_cons_of_neg (by simp [hq])]
      exact ih (fun l hl hql => h l (List.mem_cons_of_mem a hl) hql) st
    · rw [List.foldl_cons, List.filter_cons_of_pos (by simp [hq]),
        List.foldl_cons]
      exact ih (fun l hl hql => h l (List.mem_cons_of_mem a hl)
        hql) (notamStep st a)

theorem foldl_qfields (ls : List Str) (h : ∀ l ∈ ls, startsQ l = false) :
    ∀ st, (ls.foldl notamStep st).qLine = st.qLine ∧
      (ls.foldl notamStep st).category = st.category ∧
      (ls.foldl notamStep st).categoryLabel = st.categoryLabel ∧
      (ls.foldl notamStep st).conditionLabel = st.conditionLabel := by
  induction ls with
  | nil => intro st; exact ⟨rfl, rfl, rfl, rfl⟩
  | cons a t ih =>
    intro st
    rw [List.foldl_cons]
    have h1 := notamStep_qfields st a (h a (List.mem_cons_self a t))
    have h2 := ih (fun l hl => h l (List.mem_cons_of_mem a hl))
      (notamStep st a)
    exact ⟨h2.1.trans h1.1, h2.2.1.trans h1.2.1,
      h2.2.2.1.trans h1.2.2.1, h2.2.2.2.trans h1.2.2.2⟩

/-- C9: if every `Q)` line of a raw NOTAM splits on `/` into fewer than
eight parts (and contains no identifier pattern), `decodeNotam` still
returns a record (the embedding is total, so no exception is possible), its
`qLine` is `null` and `category`, `categoryLabel`, `conditionLabel` are
empty strings, and every other section is decoded exactly as if the `Q)`
lines were not present at all. -/
theorem C9_short_q_line_ignored (raw : Str)
    (h : ∀ l ∈ notamLines raw, startsQ l = true → idSearch l = none ∧
      (splitCharC '/' (trimC (l.drop 2))).length < 8) :
    decodeNotam raw =
      decodeNotamLines ((notamLines raw).filter (fun l => !startsQ l)) ∧
    (decodeNotam raw).qLine = none ∧
    (decodeNotam raw).category = [] ∧
    (decodeNotam raw).categoryLabel = [] ∧
    (decodeNotam raw).conditionLabel = [] := by
  have h1 : decodeNotam raw =
      decodeNotamLines ((notamLines raw).filter (fun l => !startsQ l)) := by
    simp only [decodeNotam, decodeNotamLines]
    rw [foldl_filterQ _ h]
  refine ⟨h1, ?_⟩
  rw [h1]
  have h2 := foldl_qfields ((notamLines raw).filter (fun l => !startsQ l))
    (by
      intro l hl
      have := (List.mem_filter.mp hl).2
      simpa using this)
    {}
  simp only [decodeNotamLines, notamFinish]
  exact ⟨h2.1, h2.2.1, h2.2.2.1, h2.2.2.2⟩

/-- Witness for C9 at a NOTAM whose Q line has only two slash-parts. -/
theorem C9_witness :
    decodeNotam c9raw.data =
      decodeNotamLines ((notamLines c9raw.data).filter
        (fun l => !startsQ l)) ∧
    (decodeNotam c9raw.data).qLine = none ∧
    (decodeNotam c9raw.data).category = [] ∧
    (decodeNotam c9raw.data).categoryLabel = [] ∧
    (decodeNotam c9raw.data).conditionLabel = [] :=
  C9_short_q_line_ignored c9raw.data (by decide)

-- ── C4 amended: E-section continuation accumulation ─────────────────────────

/-- A line that does not start a lettered section in the `[A-G])` sense does
not start any specific one. -/
theorem sw2_false (c : Char) (hc : 'A' ≤ c ∧ c ≤ 'G') (l : Str)
    (hag : isSectionAG l = false) : startsWith2 c ')' l = false := by
  cases l with
  | nil => rfl
  | cons x r =>
    cases r with
    | nil => rfl
    | cons y r2 =>
      simp only [startsWith2]
      by_cases hy : y = ')'
      · subst hy
        have hag2 : (decide ('A' ≤ x) && decide (x ≤ 'G')) = false := hag
        by_cases hx : x = c
        · subst hx
          exfalso
          apply absurd hag2
          simp [hc.1, hc.2]
        · simp [hx]
      · simp [hy]

/-- The effect of one decoder step on a line that starts no section and is
not an identifier line, while the current section is `E`: the line is
appended to the E text with a single leading space, unless it ends with `)`,
in which case it is skipped and the state is unchanged. -/
theorem notamStep_econt (st : NotamState) (a : Str)
    (hE : st.currentSection = "E".data) (hid : idSearch a = none)
    (hq : startsQ a = false) (hag : isSectionAG a = false) :
    notamStep st a =
      if endsParen a then st
      else { st with eText := st.eText ++ ' ' :: a } := by
  have sA := sw2_false 'A' (by decide) a hag
  have sB := sw2_false 'B' (by decide) a hag
  have sC := sw2_false 'C' (by decide) a hag
  have sD := sw2_false 'D' (by decide) a hag
  have sE := sw2_false 'E' (by decide) a hag
  have sF := sw2_false 'F' (by decide) a hag
  have sG := sw2_false 'G' (by decide) a hag
  simp only [notamStep, hid, hq, sA, sB, sC, sD, sE, sF, sG,
    Bool.false_eq_true, if_false, hE, hag]
  cases hep : endsParen a <;> simp [hep]

/-- C4 amended: while the current section is `E`, the decoder loop appends
to the E text, with a single leading space each, exactly those lines that
neither start a lettered section nor end with `)`; a line ending with `)` is
skipped entirely (its text is not accumulated), and no other state field
changes. -/
theorem C4_econt_accumulation (st : NotamState) (ls : List Str)
    (hE : st.currentSection = "E".data)
    (h : ∀ l ∈ ls, idSearch l = none ∧ startsQ l = false ∧
      isSectionAG l = false) :
    ls.foldl notamStep st =
      { st with eText := st.eText ++
          ((ls.filter (fun l => !endsParen l)).flatMap (fun l => ' ' :: l)) } := by
  induction ls generalizing st with
  | nil => simp
  | cons a t ih =>
    obtain ⟨hid, hq, hag⟩ := h a (List.mem_cons_self a t)
    rw [List.foldl_cons, notamStep_econt st a hE hid hq hag]
    cases hep : endsParen a with
    | true =>
      rw [if_pos rfl, List.filter_cons_of_neg (by simp [hep])]
      exact ih st hE (fun l hl => h l (List.mem_cons_of_mem a hl))
    | false =>
      rw [if_neg (by simp)]
      rw [List.filter_cons_of_pos (by simp [hep])]
      have hE' : ({ st with eText := st.eText ++ ' ' :: a } :
          NotamState).currentSection = "E".data := hE
      rw [ih _ hE' (fun l hl => h l (List.mem_cons_of_mem a hl))]
      simp

-- ── C3 amended: every map key is a known prefix; the unknown-prefix branch
-- of the Field 18 validator is unreachable ──────────────────────────────────

/-- A key of `objInsert m k v` is `k` or a key of `m`. -/
theorem objInsert_key_mem (m : List (Str × Str)) (k v : Str) (e : Str × Str)
    (he : e ∈ objInsert m k v) : e.1 = k ∨ e.1 ∈ m.map Prod.fst := by
  unfold objInsert at he
  split at he
  · obtain ⟨a, ha, hae⟩ := List.mem_map.mp he
    by_cases hk : a.1 = k
    · rw [if_pos hk] at hae
      left
      rw [← hae]
    · simp only [hk, if_neg hk] at hae
      right
      rw [← hae]
      exact List.mem_map_of_mem _ ha
  · rcases List.mem_append.mp he with h | h
    · right
      exact List.mem_map_of_mem _ h
    · left
      simp only [List.mem_singleton] at h
      rw [h]

/-- Every key of the `objInsert` fold comes from the seed map or from the
entry list. -/
theorem foldl_objInsert_keys (es : List (Str × Str)) :
    ∀ (m : List (Str × Str)) (e : Str × Str),
      e ∈ es.foldl (fun m e => objInsert m e.1 e.2) m →
      e.1 ∈ m.map Prod.fst ∨ e.1 ∈ es.map Prod.fst := by
  induction es with
  | nil =>
    intro m e h
    left
    exact List.mem_map_of_mem _ h
  | cons a t ih =>
    intro m e h
    rcases ih (objInsert m a.1 a.2) e h with h1 | h1
    · obtain ⟨e', he', hk⟩ := List.mem_map.mp h1
      rcases objInsert_key_mem m a.1 a.2 e' he' with h2 | h2
      · right
        rw [← hk, h2]
        exact List.mem_map_of_mem _ (List.mem_cons_self a t)
      · left
        rw [← hk]
        exact h2
    · right
      simp only [List.map_cons, List.mem_cons]
      right
      exact h1

/-- Every key produced by the value-assignment loop is `removeFirstSlash` of
one of the matched prefixes. -/
theorem posEntries_keys (text : Str) : ∀ (ps : List PrefixPos) (e : Str × Str),
    e ∈ posEntries text ps → ∃ p ∈ ps, e.1 = removeFirstSlash p.pfx := by
  intro ps
  induction ps with
  | nil =>
    intro e h
    simp [posEntries] at h
  | cons a t ih =>
    cases t with
    | nil =>
      intro e h
      simp only [posEntries, List.mem_singleton] at h
      exact ⟨a, List.mem_cons_self _ _, by rw [h]⟩
    | cons b t2 =>
      intro e h
      simp only [posEntries, List.mem_cons] at h
      rcases h with h | h
      · exact ⟨a, List.mem_cons_self _ _, by rw [h]⟩
      · obtain ⟨p, hp, hk⟩ := ih e h
        exact ⟨p, List.mem_cons_of_mem _ hp, hk⟩

/-- Membership through the stable index insertion. -/
theorem mem_insByIdx (x : PrefixPos) : ∀ (l : List PrefixPos) (e : PrefixPos),
    e ∈ insByIdx x l → e = x ∨ e ∈ l := by
  intro l
  induction l with
  | nil =>
    intro e h
    simp only [insByIdx, List.mem_singleton] at h
    left
    exact h
  | cons y ys ih =>
    intro e h
    simp only [insByIdx] at h
    split at h
    · rcases List.mem_cons.mp h with h | h
      · right
        rw [h]
        exact List.mem_cons_self y ys
      · rcases ih e h with h2 | h2
        · left
          exact h2
        · right
          exact List.mem_cons_of_mem _ h2
    · rcases List.mem_cons.mp h with h | h
      · left
        exact h
      · right
        exact h

/-- Membership through the index sort's fold. -/
theorem mem_sortByIdx_aux : ∀ (l acc : List PrefixPos) (e : PrefixPos),
    e ∈ l.foldl (fun acc x => insByIdx x acc) acc → e ∈ acc ∨ e ∈ l := by
  intro l
  induction l with
  | nil =>
    intro acc e h
    left
    exact h
  | cons a t ih =>
    intro acc e h
    rcases ih (insByIdx a acc) e h with h1 | h1
    · rcases mem_insByIdx a acc e h1 with h2 | h2
      · right
        rw [h2]
        exact List.mem_cons_self a t
      · left
        exact h2
    · right
      exact List.mem_cons_of_mem _ h1

theorem mem_sortByIdx (l : List PrefixPos) (e : PrefixPos)
    (h : e ∈ sortByIdx l) : e ∈ l :=
  (mem_sortByIdx_aux l [] e h).resolve_left (by simp)

/-- Membership through the stable length insertion. -/
theorem mem_insDescLen (x : Str) : ∀ (l : List Str) (e : Str),
    e ∈ insDescLen x l → e = x ∨ e ∈ l := by
  intro l
  induction l with
  | nil =>
    intro e h
    simp only [insDescLen, List.mem_singleton] at h
    left
    exact h
  | cons y ys ih =>
    intro e h
    simp only [insDescLen] at h
    split at h
    · rcases List.mem_cons.mp h with h | h
      · right
        rw [h]
        exact List.mem_cons_self y ys
      · rcases ih e h with h2 | h2
        · left
          exact h2
        · right
          exact List.mem_cons_of_mem _ h2
    · rcases List.mem_cons.mp h with h | h
      · left
        exact h
      · right
        exact h

theorem mem_sortDescLen_aux : ∀ (l acc : List Str) (e : Str),
    e ∈ l.foldl (fun acc x => insDescLen x acc) acc → e ∈ acc ∨ e ∈ l := by
  intro l
  induction l with
  | nil =>
    intro acc e h
    left
    exact h
  | cons a t ih =>
    intro acc e h
    rcases ih (insDescLen a acc) e h with h1 | h1
    · rcases mem_insDescLen a acc e h1 with h2 | h2
      · right
        rw [h2]
        exact List.mem_cons_self a t
      · left
        exact h2
    · right
      exact List.mem_cons_of_mem _ h1

theorem mem_sortDescLen (l : List Str) (e : Str) (h : e ∈ sortDescLen l) :
    e ∈ l :=
  (mem_sortDescLen_aux l [] e h).resolve_left (by simp)

/-- Every matched position carries one of the 24 known prefixes. -/
theorem rawPositions_pfx (text : Str) (p : PrefixPos)
    (h : p ∈ rawPositions text) : p.pfx ∈ FIELD18_PREFIX_KEYS := by
  unfold rawPositions at h
  obtain ⟨q, hq, hp⟩ := List.mem_flatMap.mp h
  obtain ⟨i, _, hpi⟩ := List.mem_map.mp hp
  have hpq : p.pfx = q := by rw [← hpi]
  rw [hpq]
  unfold field18SortedKeys at hq
  exact mem_sortDescLen _ _ hq

/-- Reattaching the slash recovers the original prefix, for every known
prefix. -/
theorem f18_removeFirstSlash :
    ∀ q ∈ FIELD18_PREFIX_KEYS, removeFirstSlash q ++ "/".data = q := by
  decide

/-- The prefix table lookup succeeds on every known prefix. -/
theorem f18_alookup_isSome :
    ∀ q ∈ FIELD18_PREFIX_KEYS, (alookup FIELD18_PREFIXES q).isSome = true := by
  decide

/-- No prefix name, once suffixed with `": "`, starts like the
unknown-prefix warning message. -/
theorem f18_names_head : ∀ kv ∈ FIELD18_PREFIXES,
    0 < (kv.2.name ++ ": ".data).length ∧
    (("Unknown prefix: ".data : Str))[0]? ≠ (kv.2.name ++ ": ".data)[0]? := by
  decide

/-- A successful association lookup exhibits a member of the list. -/
theorem alookup_mem {α : Type} (m : List (Str × α)) (k : Str) (v : α)
    (h : alookup m k = some v) : (k, v) ∈ m := by
  unfold alookup at h
  obtain ⟨e, he, hv⟩ := Option.map_eq_some'.mp h
  have hmem := List.mem_of_find?_eq_some he
  have hkey := List.find?_some he
  simp only [decide_eq_true_eq] at hkey
  rw [← hv, ← hkey]
  exact hmem

/-- Membership in an if-singleton pins the element down. -/
theorem mem_ite_singleton {α : Type} {P : Prop} [Decidable P] {x f : α}
    (h : f ∈ (if P then [x] else [])) : f = x := by
  split at h
  · simpa using h
  · simp at h

/-- Every key of the `parseField18` map, with its slash reattached, is one of
the 24 known prefixes. -/
theorem parseField18_keys_known (text : Str) (e : Str × Str)
    (he : e ∈ parseField18 text) : e.1 ++ "/".data ∈ FIELD18_PREFIX_KEYS := by
  unfold parseField18 at he
  split at he
  · simp at he
  · rcases foldl_objInsert_keys _ [] e he with h | h
    · simp at h
    · obtain ⟨e', he', hk⟩ := List.mem_map.mp h
      obtain ⟨p, hp, hkey⟩ := posEntries_keys text _ e' he'
      have hpfx := rawPositions_pfx text p (mem_sortByIdx _ p hp)
      rw [← hk, hkey, f18_removeFirstSlash p.pfx hpfx]
      exact hpfx

/-- C3 (amended): a Field 18 token that matches no known prefix is omitted
from the map built by `parseField18` — every key of the map, with its slash
reattached, is one of the 24 known prefixes — but the Field 18 validation
emits no finding for it: the unknown-prefix warning branch of
`validateField18Parsed` is unreachable, so no finding of any run starts with
`Unknown prefix: `. -/
theorem C3_unknown_silently_dropped (text field8 field10 : Str) :
    (∀ e ∈ parseField18 text, e.1 ++ "/".data ∈ FIELD18_PREFIX_KEYS) ∧
    ∀ f ∈ validateField18Parsed (parseField18 text) field8 field10,
      ("Unknown prefix: ".data : Str).isPrefixOf f.message = false := by
  refine ⟨fun e he => parseField18_keys_known text e he, ?_⟩
  intro f hf
  cases hm : (parseField18 text).isEmpty with
  | true =>
    simp only [validateField18Parsed, hm, if_true, List.mem_singleton] at hf
    rw [hf]
    decide
  | false =>
    simp only [validateField18Parsed, hm, Bool.false_eq_true, if_false] at hf
    rcases List.mem_append.mp hf with hf | hfE
    · rcases List.mem_append.mp hf with hf | hfD
      · rcases List.mem_append.mp hf with hf | hfC
        · rcases List.mem_append.mp hf with hfA | hfB
          · obtain ⟨e, he, hfe⟩ := List.mem_flatMap.mp hfA
            have hk := parseField18_keys_known text e he
            obtain ⟨info, hinfo⟩ :=
              Option.isSome_iff_exists.mp (f18_alookup_isSome _ hk)
            rw [hinfo] at hfe
            simp only [List.mem_singleton] at hfe
            rw [hfe]
            have hn := f18_names_head _ (alookup_mem _ _ _ hinfo)
            exact isPfxFalseAppend e.2 0 (by decide) hn.1 hn.2
          · cases htg : truthyGet (parseField18 text) "PBN".data with
            | none =>
              rw [htg] at hfB
              simp at hfB
            | some pbnV =>
              rw [htg] at hfB
              rcases List.mem_append.mp hfB with h | h
              · rw [mem_ite_singleton h]
                exact isPfxFalseAppend _ 8 (by decide) (by decide) (by decide)
              · rw [mem_ite_singleton h]
                exact isPfxFalseAppend _ 0 (by decide) (by decide) (by decide)
        · cases htg : truthyGet (parseField18 text) "DOF".data with
          | none =>
            rw [htg] at hfC
            simp at hfC
          | some v =>
            rw [htg] at hfC
            rw [mem_ite_singleton hfC]
            apply isPfxFalseAppend _ 0 (by decide)
            · rw [List.length_append]
              exact Nat.lt_of_lt_of_le (by decide) (Nat.le_add_right _ _)
            · rw [List.getElem?_append_left (by decide)]
              decide
      · cases htg : truthyGet (parseField18 text) "PER".data with
        | none =>
          rw [htg] at hfD
          simp at hfD
        | some v =>
          rw [htg] at hfD
          rw [mem_ite_singleton hfD]
          apply isPfxFalseAppend _ 0 (by decide)
          · rw [List.length_append]
            exact Nat.lt_of_lt_of_le (by decide) (Nat.le_add_right _ _)
          · rw [List.getElem?_append_left (by decide)]
            decide
    · rcases List.mem_append.mp hfE with h | h6
      · rcases List.mem_append.mp h with h | h5
        · rcases List.mem_append.mp h with h | h4
          · rcases List.mem_append.mp h with h | h3
            · rcases List.mem_append.mp h with h1 | h2
              · rw [mem_ite_singleton h1]
                decide
              · rw [mem_ite_singleton h2]
                decide
            · rw [mem_ite_singleton h3]
              decide
          · rw [mem_ite_singleton h4]
            decide
        · rw [mem_ite_singleton h5]
          decide
      · rw [mem_ite_singleton h6]
        decide

/-- Witness for C3: on `XYZ/FOO PBN/A1` the only map key is `PBN`, which is
a known prefix. -/
theorem C3_unknown_witness :
    ("PBN".data, "A1".data) ∈ parseField18 "XYZ/FOO PBN/A1".data ∧
    ("PBN".data ++ "/".data) ∈ FIELD18_PREFIX_KEYS :=
  ⟨by decide,
   (C3_unknown_silently_dropped "XYZ/FOO PBN/A1".data [] []).1
     ("PBN".data, "A1".data) (by decide)⟩

/-- Witness for the amended C4: one continuation line is appended, the line
ending in `)` is skipped. -/
theorem C4_econt_witness :
    [("CONT ONE".data : Str), "DROPPED)".data, "CONT TWO".data].foldl
      notamStep
      { currentSection := "E".data, eText := "FIRST".data } =
    { currentSection := "E".data,
      eText := ("FIRST".data ++
        (([("CONT ONE".data : Str), "DROPPED)".data, "CONT TWO".data].filter
          (fun l => !endsParen l)).flatMap (fun l => ' ' :: l))) } :=
  C4_econt_accumulation
    { currentSection := "E".data, eText := "FIRST".data }
    [("CONT ONE".data : Str), "DROPPED)".data, "CONT TWO".data]
    (by decide) (by decide)

-- ── C2 amended: conditional idempotence of the abbreviation expander ────────

/-- Whitespace in `s` is already collapsed (relative to a preceding-space
flag): every whitespace character is a plain space not preceded by another
space. -/
def wsTame : Bool → Str → Bool
  | _, [] => true
  | prevSp, c :: t =>
    if isJsSpace c then (c = ' ') && !prevSp && wsTame true t
    else wsTame false t

/-- The first character, if any, is not whitespace. -/
def headNotSp (s : Str) : Bool :=
  match s with
  | [] => true
  | c :: _ => !isJsSpace c

/-- A word replacement pass that finds no match leaves the string alone. -/
theorem replaceWordGo_id (key val : Str) : ∀ (s : Str) (p : Bool),
    hasWordMatchGo key p s = false → replaceWordGo key val 0 p s = s := by
  intro s
  induction s with
  | nil =>
    intro p h
    rfl
  | cons c t ih =>
    intro p h
    simp only [hasWordMatchGo, Bool.or_eq_false_iff] at h
    obtain ⟨h1, h2⟩ := h
    have hstep : replaceWordGo key val 0 p (c :: t) =
        c :: replaceWordGo key val 0 (isWordChar c) t := by
      simp only [replaceWordGo, h1, Bool.false_eq_true, if_false]
    rw [hstep, ih (isWordChar c) h2]

/-- The abbreviation fold leaves a string alone when no entry matches it. -/
theorem foldl_replaceWordAll_id : ∀ (l : List (Str × Str)) (u : Str),
    (∀ kv ∈ l, hasWordMatch kv.1 u = false) →
    l.foldl (fun acc kv => replaceWordAll kv.1 kv.2 acc) u = u := by
  intro l
  induction l with
  | nil =>
    intro u _
    rfl
  | cons a t ih =>
    intro u h
    rw [List.foldl_cons, show replaceWordAll a.1 a.2 u = u from
      replaceWordGo_id a.1 a.2 u false (h a (List.mem_cons_self a t))]
    exact ih u (fun kv hkv => h kv (List.mem_cons_of_mem _ hkv))

/-- The runway-pair pass without a match is the identity. -/
theorem rwyPairGo_id : ∀ (s : Str) (p : Bool),
    hasRwyPairGo p s = false → rwyPairGo 0 p s = s := by
  intro s
  induction s with
  | nil =>
    intro p h
    rfl
  | cons c t ih =>
    intro p h
    simp only [hasRwyPairGo, Bool.or_eq_false_iff] at h
    obtain ⟨h1, h2⟩ := h
    cases p with
    | true =>
      have hstep : rwyPairGo 0 true (c :: t) =
          c :: rwyPairGo 0 (isWordChar c) t := rfl
      rw [hstep, ih (isWordChar c) h2]
    | false =>
      have hnone : matchRwyPair (c :: t) = none := by
        cases hm : matchRwyPair (c :: t) with
        | none => rfl
        | some m =>
          rw [hm] at h1
          simp at h1
      have hstep : rwyPairGo 0 false (c :: t) =
          c :: rwyPairGo 0 (isWordChar c) t := by
        simp only [rwyPairGo, Bool.not_false, eq_self_iff_true, if_true, hnone]
      rw [hstep, ih (isWordChar c) h2]

/-- The single-runway pass without a match is the identity. -/
theorem rwySingleGo_id : ∀ (s : Str) (p : Bool),
    hasRwySingleGo p s = false → rwySingleGo 0 p s = s := by
  intro s
  induction s with
  | nil =>
    intro p h
    rfl
  | cons c t ih =>
    intro p h
    simp only [hasRwySingleGo, Bool.or_eq_false_iff] at h
    obtain ⟨h1, h2⟩ := h
    cases p with
    | true =>
      have hstep : rwySingleGo 0 true (c :: t) =
          c :: rwySingleGo 0 (isWordChar c) t := rfl
      rw [hstep, ih (isWordChar c) h2]
    | false =>
      have hnone : matchRwySingle (c :: t) = none := by
        cases hm : matchRwySingle (c :: t) with
        | none => rfl
        | some m =>
          rw [hm] at h1
          simp at h1
      have hstep : rwySingleGo 0 false (c :: t) =
          c :: rwySingleGo 0 (isWordChar c) t := by
        simp only [rwySingleGo, Bool.not_false, eq_self_iff_true, if_true,
          hnone]
      rw [hstep, ih (isWordChar c) h2]

/-- Collapsing whitespace is the identity on already-tame strings. -/
theorem collapseWsGo_id : ∀ (s : Str) (p : Bool),
    wsTame p s = true → collapseWsGo p s = s := by
  intro s
  induction s with
  | nil =>
    intro p h
    rfl
  | cons c t ih =>
    intro p h
    simp only [wsTame] at h
    by_cases hc : isJsSpace c = true
    · rw [if_pos hc] at h
      simp only [Bool.and_eq_true, Bool.not_eq_true', decide_eq_true_eq] at h
      obtain ⟨⟨hceq, hp⟩, ht⟩ := h
      subst hceq
      subst hp
      have hstep : collapseWsGo false (' ' :: t) =
          ' ' :: collapseWsGo true t := rfl
      rw [hstep, ih true ht]
    · have hc' : isJsSpace c = false := by simpa using hc
      rw [if_neg hc] at h
      have hstep : collapseWsGo p (c :: t) = c :: collapseWsGo false t := by
        simp only [collapseWsGo, hc', Bool.false_eq_true, if_false]
      rw [hstep, ih false h]

/-- Trimming is the identity when neither end is whitespace. -/
theorem trimC_id (s : Str) (h1 : headNotSp s = true)
    (h2 : headNotSp s.reverse = true) : trimC s = s := by
  have trimL_id : ∀ (u : Str), headNotSp u = true → trimL u = u := by
    intro u hu
    cases u with
    | nil => rfl
    | cons c t =>
      simp only [headNotSp, Bool.not_eq_true'] at hu
      simp [trimL, List.dropWhile_cons, hu]
  unfold trimC trimR
  rw [trimL_id s h1, trimL_id s.reverse h2, List.reverse_reverse]

/-- C2 (amended): the abbreviation expander is not idempotent in general,
but it is idempotent on every input whose decoded form is a fixed point of
each pass: if no abbreviation key matches the decoded text at a word
boundary, neither runway pattern matches it, its whitespace is already
collapsed, and it has no leading or trailing whitespace, then decoding a
second time changes nothing. -/
theorem C2_conditional_idempotence (t u : Str)
    (hu : decodeNotamText t = u)
    (H1 : abbrevSorted.all (fun kv => !hasWordMatch kv.1 u) = true)
    (H2 : hasRwyPair u = false)
    (H3 : hasRwySingle u = false)
    (H4 : wsTame false u = true)
    (H5 : headNotSp u = true)
    (H6 : headNotSp u.reverse = true) :
    decodeNotamText (decodeNotamText t) = decodeNotamText t := by
  rw [hu]
  have H1' : ∀ kv ∈ abbrevSorted, hasWordMatch kv.1 u = false := by
    intro kv hkv
    have := List.all_eq_true.mp H1 kv hkv
    simpa using this
  show decodeNotamText u = u
  simp only [decodeNotamText]
  rw [foldl_replaceWordAll_id abbrevSorted u H1']
  rw [show rwyPairRewrite u = u from rwyPairGo_id u false H2]
  rw [show rwySingleRewrite u = u from rwySingleGo_id u false H3]
  rw [show collapseWs u = u from collapseWsGo_id u false H4]
  exact trimC_id u H5 H6

/-- Witness for the amended C2: `CLSD` decodes to `Closed`, on which every
pass is inert, so a second decode is a no-op. -/
theorem C2_conditional_witness :
    decodeNotamText "CLSD".data = "Closed".data ∧
    decodeNotamText (decodeNotamText "CLSD".data) =
      decodeNotamText "CLSD".data :=
  ⟨by decide,
   C2_conditional_idempotence "CLSD".data "Closed".data (by decide) (by decide)
     (by decide) (by decide) (by decide) (by decide) (by decide)⟩

-- ── C8: last occurrence wins in `parseField18` ──────────────────────────────

/-- Spec-side description of C8: the index of the last occurrence of the
prefix (`occList` lists occurrences left to right). -/
def specLastIx (p text : Str) : Nat := (occList p text).getLastD 0

/-- All occurrence indices of every known prefix. -/
def allOccIdx (text : Str) : List Nat :=
  FIELD18_PREFIX_KEYS.flatMap (fun q => occList q text)

/-- Spec-side description of C8: where the span following the last
occurrence of `p` stops — the nearest occurrence of any known prefix after
it, or the end of the text. -/
def specStop (p text : Str) : Nat :=
  ((allOccIdx text).filter (fun j => specLastIx p text < j)).foldr min
    text.length

/-- Multiplicity of a string in a list. -/
def countKey (l : List Str) (x : Str) : Nat :=
  (l.filter (fun y => y = x)).length

/-- Every index reported by the occurrence scanner is at or after the
current base, marks a true occurrence of the (nonempty) pattern, relative
to the scanned suffix. -/
theorem occGo_mem (p : Str) : ∀ (s : Str) (base skip j : Nat),
    j ∈ occGo p s base skip →
    base ≤ j ∧ p.isPrefixOf (s.drop (j - base)) = true ∧
      p.isEmpty = false := by
  intro s
  induction s with
  | nil =>
    intro base skip j h
    simp [occGo] at h
  | cons c t ih =>
    intro base skip j h
    cases skip with
    | succ n =>
      simp only [occGo] at h
      obtain ⟨h1, h2, h3⟩ := ih (base + 1) n j h
      refine ⟨by omega, ?_, h3⟩
      have hj : j - base = (j - (base + 1)) + 1 := by omega
      rw [hj, List.drop_succ_cons]
      exact h2
    | zero =>
      simp only [occGo] at h
      by_cases hc : (!p.isEmpty && p.isPrefixOf (c :: t)) = true
      · rw [if_pos hc] at h
        simp only [Bool.and_eq_true, Bool.not_eq_true'] at hc
        obtain ⟨hpe, hpp⟩ := hc
        rcases List.mem_cons.mp h with heq | h
        · subst heq
          refine ⟨Nat.le_refl _, ?_, hpe⟩
          rw [Nat.sub_self, List.drop_zero]
          exact hpp
        · obtain ⟨h1, h2, h3⟩ := ih (base + 1) (p.length - 1) j h
          refine ⟨by omega, ?_, h3⟩
          have hj : j - base = (j - (base + 1)) + 1 := by omega
          rw [hj, List.drop_succ_cons]
          exact h2
      · rw [if_neg hc] at h
        obtain ⟨h1, h2, h3⟩ := ih (base + 1) 0 j h
        refine ⟨by omega, ?_, h3⟩
        have hj : j - base = (j - (base + 1)) + 1 := by omega
        rw [hj, List.drop_succ_cons]
        exact h2

/-- Scanner indices respect the pending skip. -/
theorem occGo_ge (p : Str) : ∀ (s : Str) (base skip j : Nat),
    j ∈ occGo p s base skip → base + skip ≤ j := by
  intro s
  induction s with
  | nil =>
    intro base skip j h
    simp [occGo] at h
  | cons c t ih =>
    intro base skip j h
    cases skip with
    | succ n =>
      simp only [occGo] at h
      have := ih (base + 1) n j h
      omega
    | zero =>
      simp only [occGo] at h
      by_cases hc : (!p.isEmpty && p.isPrefixOf (c :: t)) = true
      · rw [if_pos hc] at h
        rcases List.mem_cons.mp h with heq | h
        · omega
        · have := ih (base + 1) (p.length - 1) j h
          omega
      · rw [if_neg hc] at h
        have := ih (base + 1) 0 j h
        omega

/-- The occurrence scanner reports strictly increasing indices. -/
theorem occGo_pairwise (p : Str) : ∀ (s : Str) (base skip : Nat),
    (occGo p s base skip).Pairwise (· < ·) := by
  intro s
  induction s with
  | nil =>
    intro base skip
    simp [occGo]
  | cons c t ih =>
    intro base skip
    cases skip with
    | succ n =>
      simp only [occGo]
      exact ih (base + 1) n
    | zero =>
      simp only [occGo]
      by_cases hc : (!p.isEmpty && p.isPrefixOf (c :: t)) = true
      · rw [if_pos hc]
        refine List.pairwise_cons.mpr ⟨?_, ih (base + 1) (p.length - 1)⟩
        intro j hj
        have h1 := occGo_ge p t (base + 1) (p.length - 1) j hj
        omega
      · rw [if_neg hc]
        exact ih (base + 1) 0

/-- Every occurrence index lies inside the text. -/
theorem occ_lt_length (q text : Str) (j : Nat) (h : j ∈ occList q text) :
    j < text.length := by
  obtain ⟨_, hpre, hqe⟩ := occGo_mem q text 0 0 j h
  rw [Nat.sub_zero] at hpre
  by_contra hge
  have hdrop : text.drop j = [] := List.drop_eq_nil_of_le (by omega)
  rw [hdrop] at hpre
  cases q with
  | nil => simp at hqe
  | cons a r => simp [List.isPrefixOf] at hpre

theorem mem_getLastD : ∀ (l : List Nat), l ≠ [] → ∀ (d : Nat),
    l.getLastD d ∈ l
  | [], h, _ => absurd rfl h
  | [a], _, d => by simp
  | a :: b :: t, _, d => by
    rw [List.getLastD_cons]
    exact List.mem_cons_of_mem _ (mem_getLastD (b :: t) (by simp) a)

theorem le_getLastD : ∀ (l : List Nat), l.Pairwise (· < ·) →
    ∀ j ∈ l, ∀ (d : Nat), j ≤ l.getLastD d
  | [], _, j, hj, _ => absurd hj (by simp)
  | a :: t, hp, j, hj, d => by
    rw [List.getLastD_cons]
    rcases List.mem_cons.mp hj with rfl | hj
    · cases t with
      | nil => simp
      | cons b t' =>
        have hmem := mem_getLastD (b :: t') (by simp) j
        have := (List.pairwise_cons.mp hp).1 _ hmem
        omega
    · exact le_getLastD t (List.pairwise_cons.mp hp).2 j hj a

theorem foldr_min_ge : ∀ (l : List Nat) (d m : Nat), (∀ x ∈ l, m ≤ x) →
    m ≤ d → m ≤ l.foldr min d
  | [], _, _, _, hd => hd
  | a :: t, d, m, h, hd => by
    simp only [List.foldr_cons]
    exact le_min (h a (List.mem_cons_self _ _))
      (foldr_min_ge t d m (fun x hx => h x (List.mem_cons_of_mem _ hx)) hd)

theorem foldr_min_eq : ∀ (l : List Nat) (d m : Nat), m ∈ l →
    (∀ x ∈ l, m ≤ x) → m ≤ d → l.foldr min d = m
  | [], _, _, hm, _, _ => absurd hm (by simp)
  | a :: t, d, m, hm, h, hd => by
    simp only [List.foldr_cons]
    rcases List.mem_cons.mp hm with rfl | hm
    · exact Nat.min_eq_left
        (foldr_min_ge t d m (fun x hx => h x (List.mem_cons_of_mem _ hx)) hd)
    · rw [foldr_min_eq t d m hm (fun x hx => h x (List.mem_cons_of_mem _ hx))
        hd]
      exact Nat.min_eq_right (h a (List.mem_cons_self _ _))

/-- No known prefix is a prefix of a different known prefix. -/
theorem f18_no_prefix_of : ∀ q1 ∈ FIELD18_PREFIX_KEYS,
    ∀ q2 ∈ FIELD18_PREFIX_KEYS, q1.isPrefixOf q2 = true → q1 = q2 := by
  decide

/-- Dropping the slash is injective on the known prefixes. -/
theorem f18_rfs_inj : ∀ q1 ∈ FIELD18_PREFIX_KEYS,
    ∀ q2 ∈ FIELD18_PREFIX_KEYS,
    removeFirstSlash q1 = removeFirstSlash q2 → q1 = q2 := by
  decide

theorem f18_sorted_nodup : field18SortedKeys.Nodup := by decide

theorem perm_insByIdx (x : PrefixPos) : ∀ (l : List PrefixPos),
    List.Perm (insByIdx x l) (x :: l)
  | [] => List.Perm.refl _
  | y :: ys => by
    simp only [insByIdx]
    split
    · exact ((perm_insByIdx x ys).cons y).trans (List.Perm.swap x y ys)
    · exact List.Perm.refl _

theorem perm_sortByIdx_aux : ∀ (l acc : List PrefixPos),
    List.Perm (l.foldl (fun acc x => insByIdx x acc) acc) (l ++ acc)
  | [], _ => List.Perm.refl _
  | a :: t, acc => by
    rw [List.foldl_cons]
    refine (perm_sortByIdx_aux t (insByIdx a acc)).trans ?_
    refine (List.Perm.append_left t (perm_insByIdx a acc)).trans ?_
    exact List.perm_middle

theorem perm_sortByIdx (l : List PrefixPos) : List.Perm (sortByIdx l) l := by
  have h := perm_sortByIdx_aux l []
  simpa using h

theorem pairwise_insByIdx (x : PrefixPos) : ∀ (l : List PrefixPos),
    l.Pairwise (fun a b => a.index ≤ b.index) →
    (insByIdx x l).Pairwise (fun a b => a.index ≤ b.index)
  | [], _ => by simp [insByIdx]
  | y :: ys, hp => by
    obtain ⟨hy, hys⟩ := List.pairwise_cons.mp hp
    simp only [insByIdx]
    split
    · next hcond =>
      refine List.pairwise_cons.mpr ⟨?_, pairwise_insByIdx x ys hys⟩
      intro z hz
      rcases mem_insByIdx x ys z hz with rfl | hz
      · exact hcond
      · exact hy z hz
    · next hcond =>
      refine List.pairwise_cons.mpr ⟨?_, hp⟩
      intro z hz
      rcases List.mem_cons.mp hz with rfl | hz
      · omega
      · have := hy z hz
        omega

theorem pairwise_sortByIdx_aux : ∀ (l acc : List PrefixPos),
    acc.Pairwise (fun a b => a.index ≤ b.index) →
    (l.foldl (fun acc x => insByIdx x acc) acc).Pairwise
      (fun a b => a.index ≤ b.index)
  | [], _, h => h
  | a :: t, acc, h => by
    rw [List.foldl_cons]
    exact pairwise_sortByIdx_aux t _ (pairwise_insByIdx a acc h)

theorem pairwise_sortByIdx (l : List PrefixPos) :
    (sortByIdx l).Pairwise (fun a b => a.index ≤ b.index) :=
  pairwise_sortByIdx_aux l [] (by simp)

/-- Each matched position records a known prefix together with one of its
occurrence indices. -/
theorem rawPositions_mem (text : Str) (pos : PrefixPos)
    (h : pos ∈ rawPositions text) :
    pos.pfx ∈ FIELD18_PREFIX_KEYS ∧ pos.index ∈ occList pos.pfx text := by
  unfold rawPositions at h
  obtain ⟨q, hq, hp⟩ := List.mem_flatMap.mp h
  obtain ⟨i, hi, hpi⟩ := List.mem_map.mp hp
  have h1 : pos.pfx = q := by rw [← hpi]
  have h2 : pos.index = i := by rw [← hpi]
  constructor
  · rw [h1]
    unfold field18SortedKeys at hq
    exact mem_sortDescLen _ _ hq
  · rw [h1, h2]
    exact hi

theorem mem_insDescLen_self (x : Str) : ∀ (l : List Str), x ∈ insDescLen x l
  | [] => by simp [insDescLen]
  | y :: ys => by
    simp only [insDescLen]
    split
    · exact List.mem_cons_of_mem _ (mem_insDescLen_self x ys)
    · exact List.mem_cons_self _ _

theorem mem_insDescLen_of_mem (x e : Str) : ∀ (l : List Str), e ∈ l →
    e ∈ insDescLen x l
  | [], h => absurd h (by simp)
  | y :: ys, h => by
    simp only [insDescLen]
    split
    · rcases List.mem_cons.mp h with rfl | h
      · exact List.mem_cons_self _ _
      · exact List.mem_cons_of_mem _ (mem_insDescLen_of_mem x e ys h)
    · exact List.mem_cons_of_mem _ h

theorem mem_sortDescLen_of_mem_aux : ∀ (l acc : List Str) (e : Str),
    e ∈ acc ∨ e ∈ l → e ∈ l.foldl (fun acc x => insDescLen x acc) acc
  | [], _, _, h => h.resolve_right (by simp)
  | a :: t, acc, e, h => by
    rw [List.foldl_cons]
    apply mem_sortDescLen_of_mem_aux t (insDescLen a acc) e
    rcases h with h | h
    · exact Or.inl (mem_insDescLen_of_mem a e acc h)
    · rcases List.mem_cons.mp h with rfl | h
      · exact Or.inl (mem_insDescLen_self e acc)
      · exact Or.inr h

theorem mem_field18SortedKeys (q : Str) (h : q ∈ FIELD18_PREFIX_KEYS) :
    q ∈ field18SortedKeys :=
  mem_sortDescLen_of_mem_aux FIELD18_PREFIX_KEYS [] q (Or.inr h)

theorem mem_rawPositions (text q : Str) (i : Nat)
    (hq : q ∈ FIELD18_PREFIX_KEYS) (hi : i ∈ occList q text) :
    (⟨q, i⟩ : PrefixPos) ∈ rawPositions text := by
  unfold rawPositions
  exact List.mem_flatMap.mpr
    ⟨q, mem_field18SortedKeys q hq, List.mem_map.mpr ⟨i, hi, rfl⟩⟩

/-- At most one known prefix matches at each index. -/
theorem idx_unique (text q1 q2 : Str) (i : Nat)
    (hq1 : q1 ∈ FIELD18_PREFIX_KEYS) (hq2 : q2 ∈ FIELD18_PREFIX_KEYS)
    (h1 : i ∈ occList q1 text) (h2 : i ∈ occList q2 text) : q1 = q2 := by
  obtain ⟨_, hp1, _⟩ := occGo_mem q1 text 0 0 i h1
  obtain ⟨_, hp2, _⟩ := occGo_mem q2 text 0 0 i h2
  rw [Nat.sub_zero] at hp1 hp2
  have hpre1 := List.isPrefixOf_iff_prefix.mp hp1
  have hpre2 := List.isPrefixOf_iff_prefix.mp hp2
  rcases Nat.le_total q1.length q2.length with hle | hle
  · exact f18_no_prefix_of q1 hq1 q2 hq2 (List.isPrefixOf_iff_prefix.mpr
      (List.prefix_of_prefix_length_le hpre1 hpre2 hle))
  · exact (f18_no_prefix_of q2 hq2 q1 hq1 (List.isPrefixOf_iff_prefix.mpr
      (List.prefix_of_prefix_length_le hpre2 hpre1 hle))).symm

theorem rawPositions_pairwise_ne_aux (text : Str) : ∀ (ks : List Str),
    ks.Nodup → (∀ q ∈ ks, q ∈ FIELD18_PREFIX_KEYS) →
    (ks.flatMap (fun q => (occList q text).map
      (fun i => (⟨q, i⟩ : PrefixPos)))).Pairwise
      (fun a b => a.index ≠ b.index) := by
  intro ks
  induction ks with
  | nil =>
    intro _ _
    simp
  | cons q ks' ih =>
    intro hnd hK
    rw [List.flatMap_cons]
    apply List.pairwise_append.mpr
    refine ⟨?_, ih (List.nodup_cons.mp hnd).2
      (fun x hx => hK x (List.mem_cons_of_mem _ hx)), ?_⟩
    · exact List.Pairwise.map _ (fun i j hij => Nat.ne_of_lt hij)
        (occGo_pairwise q text 0 0)
    · intro a ha b hb
      obtain ⟨i, hi, hai⟩ := List.mem_map.mp ha
      obtain ⟨q', hq', hb'⟩ := List.mem_flatMap.mp hb
      obtain ⟨i', hi', hbi⟩ := List.mem_map.mp hb'
      rw [← hai, ← hbi]
      intro heq
      have hii : i = i' := heq
      subst hii
      have hqq : q = q' := idx_unique text q q' i
        (hK q (List.mem_cons_self _ _)) (hK q' (List.mem_cons_of_mem _ hq'))
        hi hi'
      exact (List.nodup_cons.mp hnd).1 (hqq ▸ hq')

theorem rawPositions_pairwise_ne (text : Str) :
    (rawPositions text).Pairwise (fun a b => a.index ≠ b.index) :=
  rawPositions_pairwise_ne_aux text field18SortedKeys f18_sorted_nodup
    (fun q hq => mem_sortDescLen _ _ hq)

/-- The value the last entry with a given key assigns (JavaScript object
literal semantics: later assignments win). -/
def lastVal (k : Str) : List (Str × Str) → Option Str
  | [] => none
  | e :: t =>
    match lastVal k t with
    | some v => some v
    | none => if e.1 = k then some e.2 else none

theorem lastVal_eq_none (k : Str) : ∀ (es : List (Str × Str)),
    (∀ e ∈ es, e.1 ≠ k) → lastVal k es = none
  | [], _ => rfl
  | e :: t, h => by
    simp only [lastVal,
      lastVal_eq_none k t (fun x hx => h x (List.mem_cons_of_mem _ hx))]
    rw [if_neg (h e (List.mem_cons_self _ _))]

theorem lastVal_append (k : Str) : ∀ (l1 l2 : List (Str × Str)),
    lastVal k (l1 ++ l2) = (lastVal k l2).or (lastVal k l1)
  | [], l2 => by
    show lastVal k l2 = (lastVal k l2).or (lastVal k [])
    cases lastVal k l2 <;> rfl
  | e :: t, l2 => by
    have ih := lastVal_append k t l2
    show (match lastVal k (t ++ l2) with
      | some v => some v
      | none => if e.1 = k then some e.2 else none) =
      (lastVal k l2).or (match lastVal k t with
        | some v => some v
        | none => if e.1 = k then some e.2 else none)
    rw [ih]
    cases lastVal k l2 with
    | some v => rfl
    | none =>
      cases lastVal k t with
      | some v => rfl
      | none => rfl

theorem alookup_eq_none {α : Type} (m : List (Str × α)) (k : Str)
    (h : ∀ e ∈ m, e.1 ≠ k) : alookup m k = none := by
  induction m with
  | nil => rfl
  | cons e t ih =>
    have he := h e (List.mem_cons_self _ _)
    simp only [alookup, List.find?]
    rw [show (decide (e.1 = k)) = false by simpa using he]
    exact ih (fun x hx => h x (List.mem_cons_of_mem _ hx))

theorem alookup_cons {α : Type} (e : Str × α) (t : List (Str × α)) (k : Str) :
    alookup (e :: t) k = if e.1 = k then some e.2 else alookup t k := by
  by_cases h : e.1 = k <;> simp [alookup, List.find?, h]

theorem alookup_append {α : Type} (l1 l2 : List (Str × α)) (k : Str) :
    alookup (l1 ++ l2) k = (alookup l1 k).or (alookup l2 k) := by
  induction l1 with
  | nil =>
    show alookup l2 k = Option.or none (alookup l2 k)
    cases alookup l2 k <;> rfl
  | cons e t ih =>
    rw [List.cons_append, alookup_cons, alookup_cons, ih]
    by_cases h : e.1 = k <;> simp [h]

/-- Lookup through the update-in-place map of `objInsert`. -/
theorem alookup_mapUpd (kk v k : Str) : ∀ (m : List (Str × Str)),
    alookup (m.map (fun x => if x.1 = kk then (kk, v) else x)) k =
    if kk = k then
      (if m.any (fun x => x.1 = kk) then some v else none)
    else alookup m k
  | [] => by
    by_cases h : kk = k <;> simp [alookup, h]
  | e :: t => by
    rw [List.map_cons]
    have hany : ((e :: t).any fun x => decide (x.1 = kk)) =
        (decide (e.1 = kk) || t.any fun x => decide (x.1 = kk)) :=
      List.any_cons
    by_cases he : e.1 = kk
    · rw [if_pos he]
      have hcons : alookup ((kk, v) ::
          t.map (fun x => if x.1 = kk then (kk, v) else x)) k =
          if kk = k then some v
          else alookup (t.map (fun x => if x.1 = kk then (kk, v) else x)) k :=
        alookup_cons (kk, v) _ k
      rw [hcons, hany, show (decide (e.1 = kk)) = true by simpa using he,
        Bool.true_or]
      by_cases h : kk = k
      · rw [if_pos h, if_pos h, if_pos rfl]
      · rw [if_neg h, if_neg h, alookup_mapUpd kk v k t, if_neg h,
          alookup_cons]
        rw [if_neg (show ¬(e.1 = k) from fun hc => h (he ▸ hc))]
    · rw [if_neg he]
      have hcons : alookup (e ::
          t.map (fun x => if x.1 = kk then (kk, v) else x)) k =
          if e.1 = k then some e.2
          else alookup (t.map (fun x => if x.1 = kk then (kk, v) else x)) k :=
        alookup_cons e _ k
      rw [hcons, hany, show (decide (e.1 = kk)) = false by simpa using he,
        Bool.false_or, alookup_mapUpd kk v k t]
      by_cases hek : e.1 = k
      · have hkk : ¬ kk = k := fun hc => he (hek.trans hc.symm)
        rw [if_pos hek, if_neg hkk, alookup_cons, if_pos hek]
      · rw [if_neg hek, alookup_cons, if_neg hek]

/-- Lookup after a single object-style insertion. -/
theorem alookup_objInsert (m : List (Str × Str)) (kk v k : Str) :
    alookup (objInsert m kk v) k =
    if kk = k then some v else alookup m k := by
  cases hany : (m.any fun x => decide (x.1 = kk)) with
  | true =>
    have hobj : objInsert m kk v =
        m.map (fun x => if x.1 = kk then (kk, v) else x) := by
      simp [objInsert, hany]
    rw [hobj, alookup_mapUpd, hany, if_pos (rfl : true = true)]
  | false =>
    have hobj : objInsert m kk v = m ++ [(kk, v)] := by
      simp [objInsert, hany]
    rw [hobj, alookup_append]
    by_cases h : kk = k
    · have hm : alookup m k = none := by
        apply alookup_eq_none
        intro e he hek
        have := List.any_eq_false.mp hany e he
        simp [hek, h] at this
      rw [hm, if_pos h]
      have h1 : alookup [(kk, v)] k = some v := by
        rw [alookup_cons, if_pos h]
      rw [h1]
      rfl
    · have h1 : alookup [(kk, v)] k = none := by
        rw [alookup_cons, if_neg h]
        rfl
      rw [h1, if_neg h]
      cases alookup m k <;> rfl

/-- Lookup through the whole `objInsert` fold: the last assignment wins,
falling back to the seed map. -/
theorem alookup_foldl_objInsert (k : Str) : ∀ (es m : List (Str × Str)),
    alookup (es.foldl (fun m e => objInsert m e.1 e.2) m) k =
    (lastVal k es).or (alookup m k)
  | [], m => by
    show alookup m k = (lastVal k []).or (alookup m k)
    cases alookup m k <;> rfl
  | a :: t, m => by
    rw [List.foldl_cons, alookup_foldl_objInsert k t (objInsert m a.1 a.2),
      alookup_objInsert m a.1 a.2 k]
    simp only [lastVal]
    cases hl : lastVal k t with
    | some v => rfl
    | none =>
      by_cases h : a.1 = k
      · rw [if_pos h, if_pos h]
        rfl
      · rw [if_neg h, if_neg h]

/-- The value-assignment loop splits at any interior position. -/
theorem posEntries_split (text : Str) : ∀ (ps1 : List PrefixPos)
    (a : PrefixPos) (ps2 : List PrefixPos),
    ∃ X, posEntries text (ps1 ++ a :: ps2) = X ++ posEntries text (a :: ps2)
  | [], _, _ => ⟨[], rfl⟩
  | [x], a, ps2 =>
    ⟨[(removeFirstSlash x.pfx,
       trimC (jsSubstring text (x.index + x.pfx.length) a.index))], rfl⟩
  | x :: y :: rest, a, ps2 => by
    obtain ⟨X', hX'⟩ := posEntries_split text (y :: rest) a ps2
    refine ⟨(removeFirstSlash x.pfx,
      trimC (jsSubstring text (x.index + x.pfx.length) y.index)) :: X', ?_⟩
    show (removeFirstSlash x.pfx,
        trimC (jsSubstring text (x.index + x.pfx.length) y.index)) ::
      posEntries text ((y :: rest) ++ a :: ps2) = _
    rw [hX']
    rfl

/-- `objInsert` never changes the key list beyond possibly appending the new
key. -/
theorem objInsert_keys_nodup (m : List (Str × Str)) (kk v : Str)
    (hnd : (m.map Prod.fst).Nodup) :
    ((objInsert m kk v).map Prod.fst).Nodup := by
  cases hany : (m.any fun x => decide (x.1 = kk)) with
  | true =>
    have hobj : objInsert m kk v =
        m.map (fun x => if x.1 = kk then (kk, v) else x) := by
      simp [objInsert, hany]
    have hkeys : ((m.map (fun x => if x.1 = kk then (kk, v) else x)).map
        Prod.fst) = m.map Prod.fst := by
      rw [List.map_map]
      apply List.map_congr_left
      intro x _
      by_cases h : x.1 = kk <;> simp [Function.comp, h]
    rw [hobj, hkeys]
    exact hnd
  | false =>
    have hobj : objInsert m kk v = m ++ [(kk, v)] := by
      simp [objInsert, hany]
    rw [hobj, List.map_append]
    apply List.nodup_append.mpr
    refine ⟨hnd, by simp, ?_⟩
    intro x hx hx2
    simp only [List.map_cons, List.map_nil, List.mem_singleton] at hx2
    obtain ⟨e, he, hek⟩ := List.mem_map.mp hx
    have := List.any_eq_false.mp hany e he
    rw [hx2] at hek
    simp [hek] at this

theorem foldl_objInsert_keys_nodup : ∀ (es m : List (Str × Str)),
    (m.map Prod.fst).Nodup →
    ((es.foldl (fun m e => objInsert m e.1 e.2) m).map Prod.fst).Nodup
  | [], _, h => h
  | a :: t, m, h => by
    rw [List.foldl_cons]
    exact foldl_objInsert_keys_nodup t _ (objInsert_keys_nodup m a.1 a.2 h)

theorem countKey_eq_one (l : List Str) (x : Str) (hnd : l.Nodup)
    (hx : x ∈ l) : countKey l x = 1 := by
  induction l with
  | nil => simp at hx
  | cons a t ih =>
    obtain ⟨hna, hnt⟩ := List.nodup_cons.mp hnd
    rcases List.mem_cons.mp hx with rfl | hx
    · have h0 : countKey t x = 0 := by
        simp only [countKey, List.length_eq_zero]
        apply List.filter_eq_nil_iff.mpr
        intro y hy
        simp only [decide_eq_true_eq]
        exact fun hyx => hna (hyx ▸ hy)
      have h1 : countKey (x :: t) x = countKey t x + 1 := by
        simp [countKey, List.filter_cons]
      rw [h1, h0]
    · have hax : ¬(a = x) := fun h => hna (h ▸ hx)
      have h1 : countKey (a :: t) x = countKey t x := by
        simp [countKey, List.filter_cons, hax]
      rw [h1]
      exact ih hnt hx

/-- C8: when a known prefix occurs more than once in the Field 18 text, the
map keeps exactly one entry for it, whose value is the trimmed span that
follows the last occurrence of the prefix, up to the next occurrence of any
known prefix (or the end of the text). -/
theorem C8_last_occurrence_wins (text p : Str) (hp : p ∈ FIELD18_PREFIX_KEYS)
    (hocc : 2 ≤ (occList p text).length) :
    countKey ((parseField18 text).map Prod.fst) (removeFirstSlash p) = 1 ∧
    alookup (parseField18 text) (removeFirstSlash p) =
      some (trimC (jsSubstring text (specLastIx p text + p.length)
        (specStop p text))) := by
  have hne : occList p text ≠ [] := by
    intro h
    rw [h] at hocc
    simp at hocc
  have hlmem : specLastIx p text ∈ occList p text := mem_getLastD _ hne 0
  have hlmax : ∀ j ∈ occList p text, j ≤ specLastIx p text :=
    fun j hj => le_getLastD (occList p text) (occGo_pairwise p text 0 0) j hj 0
  have htne : text.isEmpty = false := by
    cases text with
    | nil => exact absurd rfl hne
    | cons c t => rfl
  have hperm : List.Perm (sortedPositions text) (rawPositions text) :=
    perm_sortByIdx _
  have ha0 : (⟨p, specLastIx p text⟩ : PrefixPos) ∈ sortedPositions text :=
    hperm.mem_iff.mpr (mem_rawPositions text p _ hp hlmem)
  have hle : (sortedPositions text).Pairwise
      (fun a b => a.index ≤ b.index) := pairwise_sortByIdx _
  have hneidx : (sortedPositions text).Pairwise
      (fun a b => a.index ≠ b.index) :=
    (hperm.pairwise_iff (fun h' => Ne.symm h')).mpr
      (rawPositions_pairwise_ne text)
  have hlt : (sortedPositions text).Pairwise
      (fun a b => a.index < b.index) :=
    (hle.and hneidx).imp (fun h => Nat.lt_of_le_of_ne h.1 h.2)
  have hmemraw : ∀ b : PrefixPos, b ∈ sortedPositions text →
      b.pfx ∈ FIELD18_PREFIX_KEYS ∧ b.index ∈ occList b.pfx text :=
    fun b hb => rawPositions_mem text b (hperm.mem_iff.mp hb)
  obtain ⟨ps1, ps2, hsplit⟩ := List.append_of_mem ha0
  have hltsplit : (ps1 ++ (⟨p, specLastIx p text⟩ : PrefixPos) ::
      ps2).Pairwise (fun a b => a.index < b.index) := by
    rw [← hsplit]
    exact hlt
  have hcross := (List.pairwise_append.mp hltsplit).2.2
  have htailPW := (List.pairwise_append.mp hltsplit).2.1
  have hps2gt : ∀ b ∈ ps2, specLastIx p text < b.index :=
    fun b hb => (List.pairwise_cons.mp htailPW).1 b hb
  have hps2pfx : ∀ b ∈ ps2, b.pfx ≠ p := by
    intro b hb hbp
    have hbs : b ∈ sortedPositions text := by
      rw [hsplit]
      exact List.mem_append.mpr (Or.inr (List.mem_cons_of_mem _ hb))
    have hbm := (hmemraw b hbs).2
    rw [hbp] at hbm
    have h1 := hlmax b.index hbm
    have h2 := hps2gt b hb
    omega
  have hpf : parseField18 text =
      (posEntries text (sortedPositions text)).foldl
        (fun m e => objInsert m e.1 e.2) [] := by
    simp [parseField18, htne]
  have hlook : alookup (parseField18 text) (removeFirstSlash p) =
      lastVal (removeFirstSlash p)
        (posEntries text (sortedPositions text)) := by
    rw [hpf, alookup_foldl_objInsert]
    cases lastVal (removeFirstSlash p)
      (posEntries text (sortedPositions text)) <;> rfl
  have hrestkeys : ∀ (tail : List PrefixPos),
      (∀ b ∈ tail, b ∈ sortedPositions text) → (∀ b ∈ tail, b.pfx ≠ p) →
      ∀ e ∈ posEntries text tail, e.1 ≠ removeFirstSlash p := by
    intro tail hmem hpfx e he hek
    obtain ⟨pos, hpos, hkey⟩ := posEntries_keys text tail e he
    have hposK := (hmemraw pos (hmem pos hpos)).1
    exact hpfx pos hpos (f18_rfs_inj pos.pfx hposK p hp (by rw [← hkey, hek]))
  have hstop_and_val : lastVal (removeFirstSlash p)
      (posEntries text ((⟨p, specLastIx p text⟩ : PrefixPos) :: ps2)) =
      some (trimC (jsSubstring text (specLastIx p text + p.length)
        (specStop p text))) := by
    cases ps2 with
    | nil =>
      have hstop : specStop p text = text.length := by
        unfold specStop
        have hfil : (allOccIdx text).filter
            (fun j => decide (specLastIx p text < j)) = [] := by
          apply List.filter_eq_nil_iff.mpr
          intro j hj
          simp only [decide_eq_true_eq]
          intro hgt
          obtain ⟨q, hq, hjq⟩ := List.mem_flatMap.mp hj
          have hpos : (⟨q, j⟩ : PrefixPos) ∈ sortedPositions text :=
            hperm.mem_iff.mpr (mem_rawPositions text q j hq hjq)
          rw [hsplit] at hpos
          rcases List.mem_append.mp hpos with h1 | h1
          · have h2 := hcross _ h1 _ (List.mem_cons_self _ _)
            have h3 : j < specLastIx p text := h2
            omega
          · have h2 : (⟨q, j⟩ : PrefixPos) =
                ⟨p, specLastIx p text⟩ := by simpa using h1
            have h3 : j = specLastIx p text := congrArg PrefixPos.index h2
            omega
        rw [hfil]
        rfl
      have hv : lastVal (removeFirstSlash p) (posEntries text
          [(⟨p, specLastIx p text⟩ : PrefixPos)]) =
          if removeFirstSlash p = removeFirstSlash p then
            some (trimC (jsSubstring text (specLastIx p text + p.length)
              text.length))
          else none := rfl
      rw [hv, if_pos rfl, hstop]
    | cons b ps2' =>
      have hbmemS : b ∈ sortedPositions text := by
        rw [hsplit]
        exact List.mem_append.mpr (Or.inr (List.mem_cons_of_mem _
          (List.mem_cons_self _ _)))
      have hbK := (hmemraw b hbmemS).1
      have hbocc := (hmemraw b hbmemS).2
      have hballoc : b.index ∈ allOccIdx text :=
        List.mem_flatMap.mpr ⟨b.pfx, hbK, hbocc⟩
      have hbgt : specLastIx p text < b.index :=
        hps2gt b (List.mem_cons_self _ _)
      have hblt : b.index < text.length :=
        occ_lt_length b.pfx text b.index hbocc
      have hmin : ∀ x ∈ (allOccIdx text).filter
          (fun j => decide (specLastIx p text < j)), b.index ≤ x := by
        intro x hx
        obtain ⟨hxmem, hxgt'⟩ := List.mem_filter.mp hx
        have hxgt : specLastIx p text < x := by simpa using hxgt'
        obtain ⟨q, hq, hjq⟩ := List.mem_flatMap.mp hxmem
        have hpos : (⟨q, x⟩ : PrefixPos) ∈ sortedPositions text :=
          hperm.mem_iff.mpr (mem_rawPositions text q x hq hjq)
        rw [hsplit] at hpos
        rcases List.mem_append.mp hpos with h1 | h1
        · have h2 := hcross _ h1 _ (List.mem_cons_self _ _)
          have h3 : x < specLastIx p text := h2
          omega
        · rcases List.mem_cons.mp h1 with h1 | h1
          · have h3 : x = specLastIx p text := congrArg PrefixPos.index h1
            omega
          · rcases List.mem_cons.mp h1 with h1 | h1
            · have h3 : x = b.index := congrArg PrefixPos.index h1
              omega
            · have h2 := (List.pairwise_cons.mp
                (List.pairwise_cons.mp htailPW).2).1 _ h1
              have h3 : b.index < x := h2
              omega
      have hfilmem : b.index ∈ (allOccIdx text).filter
          (fun j => decide (specLastIx p text < j)) :=
        List.mem_filter.mpr ⟨hballoc, by simpa using hbgt⟩
      have hstop : specStop p text = b.index := by
        unfold specStop
        exact foldr_min_eq _ text.length b.index hfilmem hmin (by omega)
      have hnone : lastVal (removeFirstSlash p)
          (posEntries text (b :: ps2')) = none := by
        apply lastVal_eq_none
        apply hrestkeys (b :: ps2')
        · intro x hx
          rw [hsplit]
          exact List.mem_append.mpr (Or.inr (List.mem_cons_of_mem _ hx))
        · exact hps2pfx
      have hv : lastVal (removeFirstSlash p) (posEntries text
          ((⟨p, specLastIx p text⟩ : PrefixPos) :: b :: ps2')) =
          match lastVal (removeFirstSlash p)
            (posEntries text (b :: ps2')) with
          | some v => some v
          | none =>
            if removeFirstSlash p = removeFirstSlash p then
              some (trimC (jsSubstring text (specLastIx p text + p.length)
                b.index))
            else none := rfl
      rw [hv]
      simp [hnone, hstop]
  have hb : alookup (parseField18 text) (removeFirstSlash p) =
      some (trimC (jsSubstring text (specLastIx p text + p.length)
        (specStop p text))) := by
    rw [hlook, hsplit]
    obtain ⟨X, hX⟩ := posEntries_split text ps1 ⟨p, specLastIx p text⟩ ps2
    rw [hX, lastVal_append, hstop_and_val]
    rfl
  have hnodup : ((parseField18 text).map Prod.fst).Nodup := by
    rw [hpf]
    exact foldl_objInsert_keys_nodup _ [] (by simp)
  have hmemk : removeFirstSlash p ∈ (parseField18 text).map Prod.fst :=
    List.mem_map_of_mem Prod.fst (alookup_mem (parseField18 text) _ _ hb)
  exact ⟨countKey_eq_one _ _ hnodup hmemk, hb⟩

/-- Witness for C8: `DOF/` occurs twice; the map keeps one `DOF` entry whose
value comes from the last occurrence. -/
theorem C8_witness :
    countKey ((parseField18 "DOF/111111 REG/A4O DOF/222222".data).map
      Prod.fst) (removeFirstSlash "DOF/".data) = 1 ∧
    alookup (parseField18 "DOF/111111 REG/A4O DOF/222222".data)
      (removeFirstSlash "DOF/".data) =
    some (trimC (jsSubstring "DOF/111111 REG/A4O DOF/222222".data
      (specLastIx "DOF/".data "DOF/111111 REG/A4O DOF/222222".data +
        "DOF/".data.length)
      (specStop "DOF/".data "DOF/111111 REG/A4O DOF/222222".data))) :=
  C8_last_occurrence_wins "DOF/111111 REG/A4O DOF/222222".data "DOF/".data
    (by decide) (by decide)

end OOSA
